import Mathlib

/-!
Verification development for the ARDR reasoning-pipeline orchestrator
(ARDR.ts / ARDR_types.ts / ARDR_models.ts / ARDR_utils.ts / ARDR_stages.ts).

The TypeScript code is shallowly embedded: JavaScript numbers are modelled
as `ℚ` (with 0/0, the one NaN-producing operation the pipeline can perform,
tracked explicitly through `Option ℚ`), the inference provider is modelled
as a pure oracle (`PipelineEnv`) that yields, for each call site, the raw
response text and/or its parsed payload, and each pipeline stage becomes a
pure function of its inputs and the oracle.  Prompt strings that the code
builds and sends to the provider affect only which text the provider is
asked to produce; since the oracle is quantified over, those prompt strings
are not reconstructed here (they can never influence the orchestrator's
own control flow or data).
-/

/-! ## JavaScript-style defaulting helpers

The TypeScript code pervasively uses `x || d`.  For objects/arrays the
fallback triggers exactly when the value is `undefined`/`null` (an empty
array is truthy); for numbers it also triggers on `0`; for strings it also
triggers on `""`. -/

/-- JS `x || d` for object/array-valued `x`: only `undefined`/`null` are falsy. -/
def jsOr {α : Type} (v : Option α) (d : α) : α :=
  match v with
  | none => d
  | some x => x

/-- JS `x || d` for number-valued `x`: `undefined`, `null` and `0` are falsy
(NaN never arises at these call sites in the model). -/
def jsOrNum (v : Option ℚ) (d : ℚ) : ℚ :=
  match v with
  | none => d
  | some x => if x = 0 then d else x

/-- JS `x || d` for string-valued `x`: `undefined`, `null` and `""` are falsy. -/
def jsOrStr (v : Option String) (d : String) : String :=
  match v with
  | none => d
  | some x => if x = "" then d else x

/-- Lookup in an association-list model of a JS `Map` / plain object
(`m.get(k)` / `m[k]`, yielding `undefined` when the key is absent). -/
def mapGet {α : Type} (m : List (String × α)) (k : String) : Option α :=
  match m.find? (fun e => e.1 = k) with
  | none => none
  | some e => some e.2

/-- `Map.set` model: overwrite the binding if present, else append. -/
def mapSet {α : Type} (m : List (String × α)) (k : String) (v : α) : List (String × α) :=
  if (m.find? (fun e => e.1 = k)).isSome then
    m.map (fun e => if e.1 = k then (k, v) else e)
  else
    m ++ [(k, v)]

/-- JS `s.includes(sub)`: `sub` occurs in `s` as a contiguous substring. -/
def strIncludes (s sub : String) : Bool :=
  (List.range (s.toList.length + 1)).any
    (fun i => decide (((s.toList.drop i).take sub.toList.length) = sub.toList))

/-- Ceiling of a rational, truncated to a natural number (`0` for negatives).
Used only to bound the fuel of the recurrence loop. -/
def qceilNat (q : ℚ) : ℕ := (⌈q⌉).toNat

/-! ## Data model (ARDR_types.ts) -/

/-- `type NexusTier = "low" | "high" | "max"`. -/
inductive NexusTier where
  | low
  | high
  | max
deriving DecidableEq

/-- The `type` field of a `ScratchpadEntry`:
`"hypothesis" | "artifact" | "note" | "contradiction"`. -/
inductive EntryType where
  | hypothesis
  | artifact
  | note
  | contradiction
deriving DecidableEq

/-- `interface ScratchpadEntry` (branch, timestamp, content, type).
`Date.now()` is modelled by a monotone logical clock threaded through the
branch executor. -/
structure ScratchpadEntry where
  branch : String
  timestamp : ℕ
  content : String
  type : EntryType
deriving DecidableEq

/-- `interface Scratchpad`: an entry log plus a name → content artifact map. -/
structure Scratchpad where
  entries : List ScratchpadEntry
  sharedArtifacts : List (String × String)
deriving DecidableEq

/-- `interface BranchOutput`. -/
structure BranchOutput where
  branchName : String
  hypotheses : List String
  artifacts : List String
  notes : String
  contradictions : List String
  confidence : ℚ
deriving DecidableEq

/-- `interface VerificationResult`.  `uncertaintyScore` is an `Option ℚ`
because the code can compute `0/0` (JS `NaN`) for it; `none` models NaN. -/
structure VerificationResult where
  branchScores : List (String × ℚ)
  counterexamples : List String
  contradictions : List String
  provenInvariants : List String
  uncertaintyScore : Option ℚ
  weakPoints : List String
deriving DecidableEq

/-- `interface ReasoningBudget`.  `taskType` and `complexity` are kept as
strings: the profiler copies whatever string the parsed payload carries. -/
structure ReasoningBudget where
  taskType : String
  complexity : String
  riskScore : ℚ
  allowedDepth : ℚ
  branches : List String
  chiefModel : String
deriving DecidableEq

/-- `interface TriStructurePack`. -/
structure TriStructurePack where
  symbolic : String
  invariants : String
  formal : String
deriving DecidableEq

/-! ## Parsed payload shapes

`parseJsonFromResponse` yields an untyped JS value from which each stage
reads a fixed set of fields, each possibly `undefined`.  These structures
record exactly the fields each stage reads; a whole-response parse failure
is `none` at the `Option Payload` level. -/

/-- Fields stage 0 reads from the profiler response. -/
structure ProfilerPayload where
  taskType : Option String
  complexity : Option String
  riskScore : Option ℚ
  allowedDepth : Option ℚ
  requiredBranches : Option (List String)

/-- Fields stage B / stage D read from a branch (or refinement) response. -/
structure BranchPayload where
  hypotheses : Option (List String)
  artifacts : Option (List String)
  notes : Option String
  contradictions : Option (List String)
  confidence : Option ℚ

/-- Fields stage C reads from the counterexample-generator response. -/
structure CounterexamplePayload where
  counterexamples : Option (List String)

/-- Fields stage C reads from the consistency-scorer response. -/
structure ConsistencyPayload where
  branch_scores : Option (List (String × ℚ))
  proven_invariants : Option (List String)
  weak_points : Option (List String)
  uncertainty : Option ℚ

/-! ## Models table (ARDR_models.ts) -/

def MODELS_profiler : String := "meta-llama/llama-3.3-70b-instruct:free"
def MODELS_cheap : String := "google/gemini-2.0-flash-001"
def MODELS_logic : String := "google/gemini-2.0-flash-001"
def MODELS_pattern : String := "google/gemini-2.0-flash-001"
def MODELS_world : String := "openai/gpt-4.1-mini"
def MODELS_code : String := "anthropic/claude-sonnet-4"
def MODELS_adversarial : String := "google/gemini-2.0-flash-001"
def MODELS_chiefLow : String := "meta-llama/llama-3.3-70b-instruct:free"
def MODELS_chiefHigh : String := "deepseek/deepseek-chat-v3-0324"
def MODELS_chiefMax : String := "anthropic/claude-opus-4"

/-- `tier === "max" ? MODELS.chiefMax : tier === "high" ? MODELS.chiefHigh : MODELS.chiefLow`,
the chief-model selection repeated in stage 0, `handleConversation` and the
synthesizer. -/
def chiefModelFor (tier : NexusTier) : String :=
  match tier with
  | .max => MODELS_chiefMax
  | .high => MODELS_chiefHigh
  | .low => MODELS_chiefLow

/-! ## Inference gateway (ARDR_utils.ts): `getOpenAI` / `callModel` -/

/-- The OpenAI client handle created by `initializeOpenAI` (`openaiClient`
is `null` until then; only its presence matters to the control flow). -/
structure OpenAIClient where
  apiKey : String
deriving DecidableEq

/-- Outcome of one provider request, as seen by `callModel`'s `try` block:
either a completed response (whose `choices[0]?.message?.content` may be
missing) or a thrown transport/provider error with a message. -/
inductive ProviderOutcome where
  | success (content : Option String)
  | failure (message : String)
deriving DecidableEq

/-- `callModel` (ARDR_utils.ts lines 34-56).  `getOpenAI()` is called before
the `try`, so the "not initialized" error propagates to the caller
(`Except.error`); every provider failure inside the `try` is converted to
the inline error-marker string. -/
def callModel (client : Option OpenAIClient) (model : String)
    (outcome : ProviderOutcome) : Except String String :=
  match client with
  | none => .error "OpenAI client not initialized. Call initializeOpenAI first."
  | some _ =>
    match outcome with
    | .success content => .ok (jsOr content "")
    | .failure message => .ok ("[Error calling " ++ model ++ ": " ++ message ++ "]")

/-! ## Oracle for the pipeline -/

/-- Pure oracle for all inference calls made during one `runARDR` invocation.
For call sites whose response is consumed through `parseJsonFromResponse`,
the oracle yields the parse result directly (paired with the raw text where
the code also uses the raw text); `ℕ` indices distinguish repeated calls of
the same kind across verification/recurrence passes. -/
structure PipelineEnv where
  profilerResp : Option ProfilerPayload
  conversationCall : String → String
  triSymbolic : String
  triInvariants : String
  triFormal : String
  branchResp : String → String × Option BranchPayload
  counterexResp : ℕ → Option CounterexamplePayload
  consistencyResp : ℕ → Option ConsistencyPayload
  refineResp : ℕ → String → String × Option BranchPayload
  synthesisResp : String

/-! ## Stage 0: Task Profiler (ARDR_stages.ts lines 14-67) -/

/-- The tier ceiling in `Math.min(parsed.allowedDepth || 2, tier === "max" ? 3 : tier === "high" ? 2 : 1)`. -/
def tierDepthCeiling (tier : NexusTier) : ℚ :=
  match tier with
  | .max => 3
  | .high => 2
  | .low => 1

/-- `stage0_TaskProfiler`: build the `ReasoningBudget` from the parsed
profiler response, falling back to the hard-coded default budget when the
response fails to parse. -/
def stage0_TaskProfiler (parsed : Option ProfilerPayload) (tier : NexusTier) :
    ReasoningBudget :=
  match parsed with
  | some p =>
    { taskType := jsOrStr p.taskType "reasoning"
      complexity := jsOrStr p.complexity "medium"
      riskScore := jsOrNum p.riskScore (1/2)
      allowedDepth := min (jsOrNum p.allowedDepth 2) (tierDepthCeiling tier)
      branches := jsOr p.requiredBranches ["logic", "world"]
      chiefModel := chiefModelFor tier }
  | none =>
    { taskType := "reasoning"
      complexity := "medium"
      riskScore := 1/2
      allowedDepth := tierDepthCeiling tier
      branches := ["logic", "world", "code"]
      chiefModel := chiefModelFor tier }

/-! ## Stage A: Structured Decomposition (ARDR_stages.ts lines 69-132) -/

/-- `stageA_StructuredDecomposition`: three concurrent calls whose raw
response strings are taken verbatim as the tri-structure pack. -/
def stageA_StructuredDecomposition (env : PipelineEnv) : TriStructurePack :=
  { symbolic := env.triSymbolic
    invariants := env.triInvariants
    formal := env.triFormal }

/-! ## Stage B: Dendritic Branches (ARDR_stages.ts lines 134-269) -/

/-- `branchConfigs`: the fixed registry of branch capability profiles.
Only the model identifier is carried; the system-prompt text flows solely
into the provider call. -/
def branchConfigs (branchName : String) : Option String :=
  if branchName = "logic" then some MODELS_logic
  else if branchName = "pattern" then some MODELS_pattern
  else if branchName = "world" then some MODELS_world
  else if branchName = "code" then some MODELS_code
  else if branchName = "adversarial" then some MODELS_adversarial
  else none

/-- Construction of a `BranchOutput` from one branch response (lines
214-235): a successful parse fills the fields with `||`-defaulting, a parse
failure synthesizes the degraded output from the raw text. -/
def mkBranchOutput (branchName : String) (raw : String)
    (parsed : Option BranchPayload) : BranchOutput :=
  match parsed with
  | some p =>
    { branchName := branchName
      hypotheses := jsOr p.hypotheses []
      artifacts := jsOr p.artifacts []
      notes := jsOrStr p.notes ""
      contradictions := jsOr p.contradictions []
      confidence := jsOrNum p.confidence (1/2) }
  | none =>
    { branchName := branchName
      hypotheses := [raw.take 500]
      artifacts := []
      notes := raw
      contradictions := []
      confidence := 1/2 }

/-- `scratchpad.entries.push(...)` with the logical clock standing in for
`Date.now()`. -/
def pushEntry (pad : Scratchpad) (clock : ℕ) (branch content : String)
    (type : EntryType) : Scratchpad × ℕ :=
  ({ pad with
      entries := pad.entries ++
        [{ branch := branch, timestamp := clock, content := content, type := type }] },
   clock + 1)

/-- The scratchpad appends one completed branch performs (lines 237-250):
its `notes` as a `note` entry, then each hypothesis as a `hypothesis` entry. -/
def pushBranchEntries (pad : Scratchpad) (clock : ℕ) (out : BranchOutput) :
    Scratchpad × ℕ :=
  let (pad₁, c₁) := pushEntry pad clock out.branchName out.notes .note
  out.hypotheses.foldl
    (fun acc h => pushEntry acc.1 acc.2 out.branchName h .hypothesis)
    (pad₁, c₁)

/-- `stageB_DendriticBranches`: for each requested branch name, skip it when
it is not in the registry (`if (!config) return null`, nulls filtered out),
otherwise obtain the response, build the `BranchOutput` and append its
scratchpad entries.  The concurrent fan-out is modelled in request order
(the merge key is the branch name, so no modelled observation depends on
completion order). -/
def stageB_DendriticBranches (branches : List String)
    (resp : String → String × Option BranchPayload)
    (pad : Scratchpad) (clock : ℕ) :
    List BranchOutput × Scratchpad × ℕ :=
  match branches with
  | [] => ([], pad, clock)
  | branchName :: rest =>
    match branchConfigs branchName with
    | none => stageB_DendriticBranches rest resp pad clock
    | some _ =>
      let r := resp branchName
      let out := mkBranchOutput branchName r.1 r.2
      let padc := pushBranchEntries pad clock out
      let tail := stageB_DendriticBranches rest resp padc.1 padc.2
      (out :: tail.1, tail.2.1, tail.2.2)

/-! ## Stage C: Verification (ARDR_stages.ts lines 271-375) -/

/-- The resolved model-reported uncertainty: `0.5` when the consistency
response fails to parse, else `csParsed.uncertainty || 0.5`. -/
def resolvedUncertainty (cs : Option ConsistencyPayload) : ℚ :=
  match cs with
  | none => 1/2
  | some p => jsOrNum p.uncertainty (1/2)

/-- The `branchScores` map: `Object.entries(csParsed.branch_scores)` folded
into the map with `set`, empty when the response or the field is missing. -/
def buildBranchScores (cs : Option ConsistencyPayload) : List (String × ℚ) :=
  match cs with
  | none => []
  | some p =>
    match p.branch_scores with
    | none => []
    | some entries => entries.foldl (fun m e => mapSet m e.1 e.2) []

/-- `branchOutputs.reduce((sum, b) => sum + b.confidence, 0) / branchOutputs.length`:
`none` models the JS result `NaN` (`0/0`) on an empty branch collection. -/
def avgConfidence (branchOutputs : List BranchOutput) : Option ℚ :=
  if branchOutputs.length = 0 then none
  else some (((branchOutputs.map BranchOutput.confidence).sum) / (branchOutputs.length : ℚ))

/-- `stageC_Verification`: parse both verifier responses with per-field
defaulting, then blend `uncertaintyScore = (uncertainty + (1 - avgConfidence)) / 2`.
The `verificationContext` prompt (hypothesis list, contradiction list,
last-10 scratchpad excerpt) only parameterizes the two provider calls, so
the scratchpad argument does not influence the result. -/
def stageC_Verification (branchOutputs : List BranchOutput) (pad : Scratchpad)
    (ce : Option CounterexamplePayload) (cs : Option ConsistencyPayload) :
    VerificationResult :=
  let _ := pad
  { branchScores := buildBranchScores cs
    counterexamples :=
      match ce with
      | none => []
      | some p => jsOr p.counterexamples []
    contradictions := branchOutputs.flatMap BranchOutput.contradictions
    provenInvariants :=
      match cs with
      | none => []
      | some p => jsOr p.proven_invariants []
    uncertaintyScore :=
      (avgConfidence branchOutputs).map
        (fun avg => (resolvedUncertainty cs + (1 - avg)) / 2)
    weakPoints :=
      match cs with
      | none => []
      | some p => jsOr p.weak_points [] }

/-! ## Stage D: Adaptive Recurrence (ARDR_stages.ts lines 377-477) -/

/-- JS `x < c` where `x` may be NaN (`none`): any comparison with NaN is
`false`. -/
def jsLtOpt (x : Option ℚ) (c : ℚ) : Bool :=
  match x with
  | none => false
  | some v => decide (v < c)

/-- The effective verification score of a branch (line 406):
`verification.branchScores.get(b.branchName) || b.confidence` — the JS `||`
falls back to the branch's own confidence both when the map has no entry
for the branch and when the stored score is `0` (falsy). -/
def resolvedBranchScore (verification : VerificationResult) (b : BranchOutput) : ℚ :=
  jsOrNum (mapGet verification.branchScores b.branchName) b.confidence

/-- The weak-branch test (lines 405-408):
`const score = verification.branchScores.get(b.branchName) || b.confidence;`
`score < MIN_BRANCH_SCORE || verification.weakPoints.some(wp => wp.includes(b.branchName))`. -/
def isWeakBranch (verification : VerificationResult) (b : BranchOutput) : Bool :=
  decide (resolvedBranchScore verification b < 1/2) ||
    verification.weakPoints.any (fun wp => strIncludes wp b.branchName)

/-- Modelled from the spec (§4.5 `SELECT_WEAK`), for comparison with the
implementation: the score falls back to the branch's own reported
confidence only "when the verifier produced no explicit score for that
branch". -/
def isWeakBranchSpec (verification : VerificationResult) (b : BranchOutput) : Bool :=
  let score :=
    match mapGet verification.branchScores b.branchName with
    | none => b.confidence
    | some s => s
  decide (score < 1/2) ||
    verification.weakPoints.any (fun wp => strIncludes wp b.branchName)

/-- The refinement of one weak branch (lines 453-470): a parsed response
replaces the fields with `||`-fallbacks to the previous output and caps the
boosted confidence at `0.95`; a parse failure keeps the previous output and
adds the `+0.1` boost without any cap. -/
def refineBranch (branch : BranchOutput) (raw : String)
    (refined : Option BranchPayload) : BranchOutput :=
  match refined with
  | some r =>
    { branchName := branch.branchName
      hypotheses := jsOr r.hypotheses branch.hypotheses
      artifacts := jsOr r.artifacts branch.artifacts
      notes := jsOrStr r.notes raw
      contradictions := jsOr r.contradictions []
      confidence := min (jsOrNum r.confidence branch.confidence + 1/10) (19/20) }
  | none => { branch with confidence := branch.confidence + 1/10 }

/-- Result of `stageD_AdaptiveRecurrence`. -/
structure StageDResult where
  shouldRecur : Bool
  updatedBranches : List BranchOutput
deriving DecidableEq

/-- `stageD_AdaptiveRecurrence`.  The instruction-generation call (lines
417-433) and the per-branch refinement instruction default (line 440) only
parameterize prompt text sent to the provider, so they are absorbed into
the oracle `refine`.  The scratchpad is neither read nor written by this
stage in the source. -/
def stageD_AdaptiveRecurrence (branchOutputs : List BranchOutput)
    (verification : VerificationResult) (allowedDepth : ℚ) (recurrenceCount : ℕ)
    (refine : String → String × Option BranchPayload) : StageDResult :=
  if jsLtOpt verification.uncertaintyScore (11/20) && verification.weakPoints.isEmpty then
    { shouldRecur := false, updatedBranches := branchOutputs }
  else if allowedDepth ≤ (recurrenceCount : ℚ) then
    { shouldRecur := false, updatedBranches := branchOutputs }
  else
    let weakBranches := branchOutputs.filter (fun b => isWeakBranch verification b)
    if weakBranches.isEmpty then
      { shouldRecur := false, updatedBranches := branchOutputs }
    else
      let updated := branchOutputs.map (fun branch =>
        if (weakBranches.find? (fun wb => wb.branchName = branch.branchName)).isNone then
          branch
        else
          let r := refine branch.branchName
          refineBranch branch r.1 r.2)
      { shouldRecur := true, updatedBranches := updated }

/-! ## The recurrence loop and `runARDR` (ARDR.ts lines 76-130) -/

/-- One tag per pipeline stage, for recording which stages a run executes. -/
inductive Stage where
  | profiler
  | conversation
  | decomposition
  | branches
  | verification
  | recurrence
  | synthesis
deriving DecidableEq

/-- The mutable portion of `ARDRState` touched by the `while` loop. -/
structure LoopState where
  branchOutputs : List BranchOutput
  verification : VerificationResult
  recurrenceCount : ℕ
  trace : List Stage
deriving DecidableEq

/-- One iteration of the `while` body of `runARDR` (ARDR.ts lines 110-124):
run stage D, install its updated branch collection, and when it asks to
recur, bump the counter and re-run stage C.  The Bool is
`recurrenceResult.shouldRecur` (`false` sets `shouldContinue = false`). -/
def recurrenceBody (env : PipelineEnv) (allowedDepth : ℚ) (pad : Scratchpad)
    (s : LoopState) : Bool × LoopState :=
  let d := stageD_AdaptiveRecurrence s.branchOutputs s.verification allowedDepth
    s.recurrenceCount (env.refineResp s.recurrenceCount)
  if d.shouldRecur then
    (true,
      { branchOutputs := d.updatedBranches
        verification := stageC_Verification d.updatedBranches pad
          (env.counterexResp (s.recurrenceCount + 1))
          (env.consistencyResp (s.recurrenceCount + 1))
        recurrenceCount := s.recurrenceCount + 1
        trace := s.trace ++ [Stage.recurrence, Stage.verification] })
  else
    (false,
      { s with
          branchOutputs := d.updatedBranches
          trace := s.trace ++ [Stage.recurrence] })

/-- The `while (shouldContinue && state.recurrenceCount < state.budget.allowedDepth)`
loop of `runARDR`, with explicit fuel (the loop terminates because the
count strictly increases on every recurring pass; `recurrenceLoop_fuel_stable`
below shows any fuel of at least `qceilNat allowedDepth + 1` is enough). -/
def recurrenceLoop (env : PipelineEnv) (allowedDepth : ℚ) (pad : Scratchpad) :
    LoopState → ℕ → LoopState
  | s, 0 => s
  | s, fuel + 1 =>
    if (s.recurrenceCount : ℚ) < allowedDepth then
      let b := recurrenceBody env allowedDepth pad s
      if b.1 then recurrenceLoop env allowedDepth pad b.2 fuel else b.2
    else s

/-- `handleConversation` (ARDR_stages.ts lines 560-578): one direct
streaming call to the tier's chief model. -/
def handleConversation (env : PipelineEnv) (tier : NexusTier) : String :=
  env.conversationCall (chiefModelFor tier)

/-- `stageFinal_GrandSynthesis` (lines 479-558): the evidence ledger is
prompt text for the chief-model call; the streamed concatenation is the
oracle's synthesis response. -/
def stageFinal_GrandSynthesis (env : PipelineEnv) : String :=
  env.synthesisResp

/-- The observable outcome of one `runARDR` invocation: the returned text,
the final `ARDRState` fields, and the list of stages that executed.  The
`verification` field is `none` when the run never reached stage C (the
source leaves `state.verification` as its `null` placeholder on the fast
path). -/
structure RunResult where
  finalResponse : String
  budget : ReasoningBudget
  scratchpad : Scratchpad
  branchOutputs : List BranchOutput
  verification : Option VerificationResult
  recurrenceCount : ℕ
  stagesRun : List Stage
deriving DecidableEq

/-- `runARDR` (ARDR.ts lines 76-130): profile, short-circuit to the fast
path for conversational input or an empty branch set, otherwise decompose,
run branches, verify, loop on adaptive recurrence, and synthesize. -/
def runARDR (env : PipelineEnv) (tier : NexusTier) : RunResult :=
  let budget := stage0_TaskProfiler env.profilerResp tier
  if budget.taskType = "conversation" ∨ budget.branches = [] then
    { finalResponse := handleConversation env tier
      budget := budget
      scratchpad := { entries := [], sharedArtifacts := [] }
      branchOutputs := []
      verification := none
      recurrenceCount := 0
      stagesRun := [Stage.profiler, Stage.conversation] }
  else
    let _triPack := stageA_StructuredDecomposition env
    let b := stageB_DendriticBranches budget.branches env.branchResp
      { entries := [], sharedArtifacts := [] } 0
    let v₀ := stageC_Verification b.1 b.2.1 (env.counterexResp 0) (env.consistencyResp 0)
    let fin := recurrenceLoop env budget.allowedDepth b.2.1
      { branchOutputs := b.1, verification := v₀, recurrenceCount := 0, trace := [] }
      (qceilNat budget.allowedDepth + 1)
    { finalResponse := stageFinal_GrandSynthesis env
      budget := budget
      scratchpad := b.2.1
      branchOutputs := fin.branchOutputs
      verification := some fin.verification
      recurrenceCount := fin.recurrenceCount
      stagesRun := [Stage.profiler, Stage.decomposition, Stage.branches, Stage.verification]
        ++ fin.trace ++ [Stage.synthesis] }

/-! ## The Response Interpreter (ARDR_utils.ts lines 91-99)

`parseJsonFromResponse` matches the regex `\{[\s\S]*\}` against the
response — because the quantifier is greedy this is the region running from
the first `{` (that has some later `}`) to the LAST `}` of the whole text —
and feeds the match to `JSON.parse`, returning `null` when there is no
match or parsing throws.  `JSON.parse` is modelled by `jparse` below over a
syntax tree of JSON values. -/

/-- JSON values, the result type of the modelled `JSON.parse`. -/
inductive Json where
  | null
  | bool (b : Bool)
  | num (q : ℚ)
  | str (s : String)
  | arr (elements : List Json)
  | obj (fields : List (String × Json))

/-- JSON insignificant whitespace. -/
def isJsonWs (c : Char) : Bool :=
  c = ' ' || c = '\t' || c = '\n' || c = '\r'

/-- Skip insignificant whitespace. -/
def skipWs (cs : List Char) : List Char :=
  cs.dropWhile isJsonWs

/-- Value of one hex digit, for `\uXXXX` escapes. -/
def hexVal (c : Char) : Option ℕ :=
  if '0' ≤ c ∧ c ≤ '9' then some (c.toNat - '0'.toNat)
  else if 'a' ≤ c ∧ c ≤ 'f' then some (c.toNat - 'a'.toNat + 10)
  else if 'A' ≤ c ∧ c ≤ 'F' then some (c.toNat - 'A'.toNat + 10)
  else none

/-- Body of a JSON string literal (opening quote already consumed):
returns the decoded characters and the remaining input.  Raw control
characters are rejected and the escapes are those of the JSON grammar. -/
def parseStringBody : List Char → Option (List Char × List Char)
  | [] => none
  | '"' :: rest => some ([], rest)
  | '\\' :: esc =>
    match esc with
    | '"' :: rest => (parseStringBody rest).map (fun p => ('"' :: p.1, p.2))
    | '\\' :: rest => (parseStringBody rest).map (fun p => ('\\' :: p.1, p.2))
    | '/' :: rest => (parseStringBody rest).map (fun p => ('/' :: p.1, p.2))
    | 'b' :: rest => (parseStringBody rest).map (fun p => (Char.ofNat 8 :: p.1, p.2))
    | 'f' :: rest => (parseStringBody rest).map (fun p => (Char.ofNat 12 :: p.1, p.2))
    | 'n' :: rest => (parseStringBody rest).map (fun p => ('\n' :: p.1, p.2))
    | 'r' :: rest => (parseStringBody rest).map (fun p => ('\r' :: p.1, p.2))
    | 't' :: rest => (parseStringBody rest).map (fun p => ('\t' :: p.1, p.2))
    | 'u' :: h₁ :: h₂ :: h₃ :: h₄ :: rest =>
      match hexVal h₁, hexVal h₂, hexVal h₃, hexVal h₄ with
      | some a, some b, some c, some d =>
        (parseStringBody rest).map
          (fun p => (Char.ofNat (((a * 16 + b) * 16 + c) * 16 + d) :: p.1, p.2))
      | _, _, _, _ => none
    | _ => none
  | c :: rest =>
    if c.toNat < 32 then none
    else (parseStringBody rest).map (fun p => (c :: p.1, p.2))

/-- Decimal digits to a natural number. -/
def digitsToNat (ds : List Char) : ℕ :=
  ds.foldl (fun n c => 10 * n + (c.toNat - '0'.toNat)) 0

/-- JSON number grammar: `-? int frac? exp?` with no leading zeros,
evaluated into a rational. -/
def parseNumber (cs : List Char) : Option (ℚ × List Char) :=
  let isDigit : Char → Bool := fun c => decide ('0' ≤ c ∧ c ≤ '9')
  let (neg, cs₁) :=
    match cs with
    | '-' :: rest => (true, rest)
    | _ => (false, cs)
  let intDs := cs₁.takeWhile isDigit
  let cs₂ := cs₁.dropWhile isDigit
  if intDs.isEmpty then none
  else if intDs.head? = some '0' ∧ intDs.length ≠ 1 then none
  else
    let (fracDs, cs₃) :=
      match cs₂ with
      | '.' :: rest => (rest.takeWhile isDigit, rest.dropWhile isDigit)
      | _ => ([], cs₂)
    if cs₂.head? = some '.' ∧ fracDs.isEmpty then none
    else
      let expPart : Option (Bool × List Char × List Char) :=
        match cs₃ with
        | 'e' :: '-' :: rest => some (true, rest.takeWhile isDigit, rest.dropWhile isDigit)
        | 'e' :: '+' :: rest => some (false, rest.takeWhile isDigit, rest.dropWhile isDigit)
        | 'e' :: rest => some (false, rest.takeWhile isDigit, rest.dropWhile isDigit)
        | 'E' :: '-' :: rest => some (true, rest.takeWhile isDigit, rest.dropWhile isDigit)
        | 'E' :: '+' :: rest => some (false, rest.takeWhile isDigit, rest.dropWhile isDigit)
        | 'E' :: rest => some (false, rest.takeWhile isDigit, rest.dropWhile isDigit)
        | _ => none
      let mantissa : ℚ :=
        (digitsToNat intDs : ℚ) + (digitsToNat fracDs : ℚ) / ((10 : ℚ) ^ fracDs.length)
      let signed : ℚ := if neg then -mantissa else mantissa
      match expPart with
      | none => some (signed, cs₃)
      | some (eneg, expDs, rest) =>
        if expDs.isEmpty then none
        else if eneg then some (signed / ((10 : ℚ) ^ digitsToNat expDs), rest)
        else some (signed * ((10 : ℚ) ^ digitsToNat expDs), rest)

mutual

/-- One JSON value (fuelled recursion; the fuel chosen in `jparse` exceeds
any possible nesting depth of its input). -/
def parseJsonValue : ℕ → List Char → Option (Json × List Char)
  | 0, _ => none
  | fuel + 1, cs =>
    match skipWs cs with
    | 'n' :: 'u' :: 'l' :: 'l' :: rest => some (.null, rest)
    | 't' :: 'r' :: 'u' :: 'e' :: rest => some (.bool true, rest)
    | 'f' :: 'a' :: 'l' :: 's' :: 'e' :: rest => some (.bool false, rest)
    | '"' :: rest => (parseStringBody rest).map (fun p => (.str (String.mk p.1), p.2))
    | '[' :: rest =>
      match skipWs rest with
      | ']' :: r₂ => some (.arr [], r₂)
      | _ => (parseJsonItems fuel rest).map (fun p => (.arr p.1, p.2))
    | '{' :: rest =>
      match skipWs rest with
      | '}' :: r₂ => some (.obj [], r₂)
      | _ => (parseJsonFields fuel rest).map (fun p => (.obj p.1, p.2))
    | rest => (parseNumber rest).map (fun p => (.num p.1, p.2))

/-- Comma-separated array elements up to the closing `]`. -/
def parseJsonItems : ℕ → List Char → Option (List Json × List Char)
  | 0, _ => none
  | fuel + 1, cs =>
    match parseJsonValue fuel cs with
    | none => none
    | some (v, rest) =>
      match skipWs rest with
      | ']' :: r₂ => some ([v], r₂)
      | ',' :: r₂ => (parseJsonItems fuel r₂).map (fun p => (v :: p.1, p.2))
      | _ => none

/-- Comma-separated `"key": value` members up to the closing `}`. -/
def parseJsonFields : ℕ → List Char → Option (List (String × Json) × List Char)
  | 0, _ => none
  | fuel + 1, cs =>
    match skipWs cs with
    | '"' :: r₁ =>
      match parseStringBody r₁ with
      | none => none
      | some (key, r₂) =>
        match skipWs r₂ with
        | ':' :: r₃ =>
          match parseJsonValue fuel r₃ with
          | none => none
          | some (v, r₄) =>
            match skipWs r₄ with
            | '}' :: r₅ => some ([(String.mk key, v)], r₅)
            | ',' :: r₅ => (parseJsonFields fuel r₅).map (fun p => ((String.mk key, v) :: p.1, p.2))
            | _ => none
        | _ => none
    | _ => none

end

/-- Model of `JSON.parse(text)`: one JSON value covering the whole text up
to whitespace, `none` when the JS call would throw. -/
def jparse (s : String) : Option Json :=
  match parseJsonValue (s.toList.length + 1) s.toList with
  | some (v, rest) => if (skipWs rest).isEmpty then some v else none
  | none => none

/-- The region matched by `response.match(/\{[\s\S]*\})/` (greedy): from
the first `{` that is followed by some later `}`, through the last `}` of
the entire text; `none` when the regex does not match. -/
def jsonBraceMatch (s : String) : Option String :=
  let cs := s.toList
  match (List.range cs.length).find?
      (fun i => decide (cs.get? i = some '{') &&
        (List.range cs.length).any (fun j => decide (i < j) && decide (cs.get? j = some '}'))) with
  | none => none
  | some i =>
    match ((List.range cs.length).filter (fun j => decide (cs.get? j = some '}'))).getLast? with
    | none => none
    | some j => some (String.mk ((cs.drop i).take (j + 1 - i)))

/-- `parseJsonFromResponse` (ARDR_utils.ts lines 91-99): `JSON.parse` on the
greedy brace match, `null` when there is no match or parsing throws. -/
def parseJsonFromResponse (response : String) : Option Json :=
  match jsonBraceMatch response with
  | none => none
  | some matched => jparse matched

/-- Scan of a balanced `{...}` region: the input starts at a `{`, the depth
counter tracks nesting, and the region closes at the `}` returning the
depth to zero. -/
def balanceScan : List Char → ℕ → List Char → Option (List Char)
  | [], _, _ => none
  | c :: rest, depth, acc =>
    if c = '{' then balanceScan rest (depth + 1) (acc ++ [c])
    else if c = '}' then
      if depth = 1 then some (acc ++ [c])
      else balanceScan rest (depth - 1) (acc ++ [c])
    else balanceScan rest depth (acc ++ [c])

/-- Modelled from the spec (§6 Response Interpreter contract), for
comparison with the implementation: "locate the first balanced `{...}`
region" of the text. -/
def specFirstBalancedRegion (s : String) : Option String :=
  let tail := s.toList.dropWhile (fun c => decide (c ≠ '{'))
  if tail.isEmpty then none
  else (balanceScan tail 0 []).map String.mk

/-- Modelled from the spec (§6 Response Interpreter contract): parse the
first balanced `{...}` region, `none` when there is no such region or
parsing fails. -/
def specResponseInterpret (s : String) : Option Json :=
  (specFirstBalancedRegion s).bind jparse

/-! ## Concrete oracles used by witnesses and counterexamples -/

/-- A neutral oracle: every response fails to parse. -/
def baseEnv : PipelineEnv :=
  { profilerResp := none
    conversationCall := fun _ => "hello-resp"
    triSymbolic := "S"
    triInvariants := "I"
    triFormal := "F"
    branchResp := fun _ => ("raw", none)
    counterexResp := fun _ => none
    consistencyResp := fun _ => none
    refineResp := fun _ _ => ("rawR", none)
    synthesisResp := "final" }

/-- Oracle for the C1 counterexample: the logic branch reports a malformed
confidence of `1.5`, which stage B accepts unchanged; verification then
reports low uncertainty so the run completes without recurring. -/
def clampCexEnv : PipelineEnv :=
  { baseEnv with
    profilerResp := some
      { taskType := some "code", complexity := none, riskScore := none,
        allowedDepth := none, requiredBranches := some ["logic"] }
    branchResp := fun _ => ("r",
      some { hypotheses := some ["h"], artifacts := some [], notes := some "n",
             contradictions := some [], confidence := some (3/2) })
    consistencyResp := fun _ => some
      { branch_scores := none, proven_invariants := none,
        weak_points := some [], uncertainty := some (1/10) } }

/-- Oracle for the C1 witness: every payload value is well-formed
(the branch response fails to parse, giving the 0.5 default; refinements
always parse with an in-range confidence). -/
def clampOkEnv : PipelineEnv :=
  { baseEnv with
    profilerResp := some
      { taskType := some "code", complexity := none, riskScore := none,
        allowedDepth := none, requiredBranches := some ["logic"] }
    refineResp := fun _ _ => ("rawR",
      some { hypotheses := some ["h1"], artifacts := none, notes := some "n1",
             contradictions := none, confidence := some (7/10) }) }

/-- Oracle for the C2 counterexample: the profiler proposes the fractional
depth `2.5` (kept by the one-sided `Math.min` clamp) and verification keeps
the single branch weak forever, so the loop recurs until the integer
counter first reaches `3 > 2.5`. -/
def depthCexEnv : PipelineEnv :=
  { baseEnv with
    profilerResp := some
      { taskType := some "code", complexity := none, riskScore := none,
        allowedDepth := some (5/2), requiredBranches := some ["logic"] }
    branchResp := fun _ => ("r",
      some { hypotheses := some ["h"], artifacts := some [], notes := some "n",
             contradictions := some [], confidence := some (3/10) })
    consistencyResp := fun _ => some
      { branch_scores := some [("logic", 1/10)], proven_invariants := none,
        weak_points := some ["logic weak"], uncertainty := some 1 } }

/-- Oracle for the C3 witness: the profiler classifies the input as
conversational with no required branches. -/
def fastPathEnv : PipelineEnv :=
  { baseEnv with
    profilerResp := some
      { taskType := some "conversation", complexity := none, riskScore := none,
        allowedDepth := none, requiredBranches := some [] } }

/-- Oracle for the C6 counterexample and witness: one branch is weak on the
first verification pass, its refinement parses with fresh notes and a fresh
hypothesis, and the continuation is reached with the scratchpad untouched
by the recurrent invocation. -/
def padCexEnv : PipelineEnv :=
  { baseEnv with
    profilerResp := some
      { taskType := some "code", complexity := none, riskScore := none,
        allowedDepth := none, requiredBranches := some ["logic"] }
    branchResp := fun _ => ("r",
      some { hypotheses := some ["h0"], artifacts := some [], notes := some "n0",
             contradictions := some [], confidence := some (3/10) })
    consistencyResp := fun k =>
      if k = 0 then
        some { branch_scores := none, proven_invariants := none,
               weak_points := some ["logic is weak"], uncertainty := some (9/10) }
      else
        some { branch_scores := none, proven_invariants := none,
               weak_points := some [], uncertainty := some (1/10) }
    refineResp := fun _ _ => ("rawR",
      some { hypotheses := some ["h1"], artifacts := none, notes := some "improved",
             contradictions := none, confidence := some (8/10) }) }

/-- Oracle for the C10 theorem: the profiler requests only the unknown
branch name `"quantum"`, so the fast path is skipped yet stage B produces
no branch output at all. -/
def emptyBranchEnv : PipelineEnv :=
  { baseEnv with
    profilerResp := some
      { taskType := some "code", complexity := none, riskScore := none,
        allowedDepth := none, requiredBranches := some ["quantum"] } }

/-- Verification result for the C4 counterexample: the verifier reports the
explicit score `0` for the `logic` branch and no weak points. -/
def weakCexVerification : VerificationResult :=
  { branchScores := [("logic", 0)]
    counterexamples := []
    contradictions := []
    provenInvariants := []
    uncertaintyScore := some 1
    weakPoints := [] }

/-- Branch output for the C4 counterexample: high self-reported confidence. -/
def weakCexBranch : BranchOutput :=
  { branchName := "logic"
    hypotheses := []
    artifacts := []
    notes := ""
    contradictions := []
    confidence := 9/10 }

/-- Verification result for the C4 witness: no explicit scores, one weak
point naming the `code` branch. -/
def weakOkVerification : VerificationResult :=
  { branchScores := []
    counterexamples := []
    contradictions := []
    provenInvariants := []
    uncertaintyScore := some (7/10)
    weakPoints := ["code branch lacks rigor"] }

/-- Branch output for the C4 witness. -/
def weakOkBranch : BranchOutput :=
  { branchName := "code"
    hypotheses := []
    artifacts := []
    notes := ""
    contradictions := []
    confidence := 3/5 }

/-- The parsed branch (or refinement) payload, when it parses at all and
reports a confidence, reports one in `[0,1]`. -/
def BranchPayloadConfOK (p : Option BranchPayload) : Prop :=
  ∀ q, p = some q → ∀ c, q.confidence = some c → 0 ≤ c ∧ c ≤ 1

/-- Every branch output confidence lies in `[0,1]`. -/
def ConfsOK (bos : List BranchOutput) : Prop :=
  ∀ b ∈ bos, 0 ≤ b.confidence ∧ b.confidence ≤ 1

/-- The parsed consistency payload, when it parses and reports an
uncertainty, reports one in `[0,1]`. -/
def ConsistencyUncOK (cs : Option ConsistencyPayload) : Prop :=
  ∀ p, cs = some p → ∀ u, p.uncertainty = some u → 0 ≤ u ∧ u ≤ 1

/-- Loop-state invariant: branch confidences in range and, when the stored
uncertainty is a number at all, it is in range. -/
def LoopStateOK (s : LoopState) : Prop :=
  ConfsOK s.branchOutputs ∧
    ∀ u, s.verification.uncertaintyScore = some u → 0 ≤ u ∧ u ≤ 1

/-- All payloads delivered by the oracle are numerically well-formed and
every refinement response parses (the two conditions under which the code
keeps confidences in range: a refinement parse failure applies the `+0.1`
boost with no cap). -/
def EnvPayloadsOK (env : PipelineEnv) : Prop :=
  (∀ bn, BranchPayloadConfOK (env.branchResp bn).2) ∧
  (∀ k bn, BranchPayloadConfOK (env.refineResp k bn).2) ∧
  (∀ k, ConsistencyUncOK (env.consistencyResp k)) ∧
  (∀ k bn, (env.refineResp k bn).2 ≠ none)

/-- A profiler depth proposal the one-sided clamp handles as the spec
describes: absent, zero (JS-falsy, replaced by the default `2`), or a
positive integer.  Negative or fractional proposals fall outside of this. -/
def depthProposalTame (parsed : Option ProfilerPayload) : Prop :=
  match parsed with
  | none => True
  | some p =>
    match p.allowedDepth with
    | none => True
    | some d => d = 0 ∨ ∃ m : ℕ, 1 ≤ m ∧ d = (m : ℚ)

/-- Profiler payload whose depth proposal is the negative number `-1`. -/
def badDepthPayload : ProfilerPayload :=
  { taskType := some "code"
    complexity := none
    riskScore := none
    allowedDepth := some (-1)
    requiredBranches := some ["logic"] }

/-! ## General lemmas -/

/-- Bounds transfer through the JS numeric `||` default. -/
lemma jsOrNum_bounds {v : Option ℚ} {d lo hi : ℚ}
    (hv : ∀ c, v = some c → lo ≤ c ∧ c ≤ hi) (hd : lo ≤ d ∧ d ≤ hi) :
    lo ≤ jsOrNum v d ∧ jsOrNum v d ≤ hi := by
  cases v with
  | none => exact hd
  | some x =>
    by_cases hx : x = 0
    · simpa [jsOrNum, hx] using hd
    · simpa [jsOrNum, hx] using hv x rfl

/-- A list of rationals in `[0,1]` sums to at most its length. -/
lemma list_sum_bounds :
    ∀ (l : List ℚ), (∀ x ∈ l, 0 ≤ x ∧ x ≤ 1) → 0 ≤ l.sum ∧ l.sum ≤ (l.length : ℚ) := by
  intro l
  induction l with
  | nil => intro _; simp
  | cons a t ih =>
    intro h
    have ha := h a (by simp)
    have ht := ih (fun x hx => h x (by simp [hx]))
    simp only [List.sum_cons, List.length_cons]
    push_cast
    constructor
    · linarith [ha.1, ht.1]
    · linarith [ha.2, ht.2]

/-- Every rational is at most its truncated ceiling. -/
lemma le_qceilNat (q : ℚ) : q ≤ (qceilNat q : ℚ) := by
  unfold qceilNat
  rcases le_or_lt 0 ⌈q⌉ with h | h
  · rw [show ((⌈q⌉.toNat : ℚ)) = ((⌈q⌉.toNat : ℤ) : ℚ) by push_cast; ring,
      Int.toNat_of_nonneg h]
    exact_mod_cast Int.le_ceil q
  · have hq : q ≤ 0 := by
      have := Int.le_ceil q
      have hc : (⌈q⌉ : ℚ) ≤ 0 := by exact_mod_cast h.le
      linarith
    have : (0 : ℚ) ≤ (⌈q⌉.toNat : ℚ) := by positivity
    linarith

/-- A natural number strictly below a rational is strictly below its
truncated ceiling, so the successor still fits under it. -/
lemma succ_le_qceilNat {n : ℕ} {q : ℚ} (h : (n : ℚ) < q) : n + 1 ≤ qceilNat q := by
  have h1 : (n : ℤ) < ⌈q⌉ := by
    rw [Int.lt_ceil]
    exact_mod_cast h
  have h0 : (0 : ℤ) ≤ ⌈q⌉ := le_trans (by positivity) h1.le
  have h2 : ((n + 1 : ℕ) : ℤ) ≤ ⌈q⌉ := by push_cast; omega
  exact (Int.le_toNat h0).mpr h2

/-! ## C9: the Inference Gateway never raises once initialized -/

/-- C9: once the client is initialized, `callModel` never propagates an
error to its caller — a provider failure is returned as the ordinary string
`"[Error calling <model>: <message>]"` and a completed response is returned
as its (possibly empty) content — while invoking the gateway before
initialization raises the fatal `"OpenAI client not initialized"` error. -/
theorem callModel_error_containment :
    (∀ (c : OpenAIClient) (model msg : String),
      callModel (some c) model (.failure msg) =
        .ok ("[Error calling " ++ model ++ ": " ++ msg ++ "]")) ∧
    (∀ (c : OpenAIClient) (model : String) (content : Option String),
      callModel (some c) model (.success content) = .ok (jsOr content "")) ∧
    (∀ (model : String) (outcome : ProviderOutcome),
      callModel none model outcome =
        .error "OpenAI client not initialized. Call initializeOpenAI first.") := by
  refine ⟨fun _ _ _ => rfl, fun _ _ _ => rfl, fun _ _ => rfl⟩

/-! ## C3: the conversational fast path -/

/-- C3: when the profiled budget has task type `"conversation"` or an empty
branch set, `runARDR` makes a single direct call to the tier's chief model
and returns its response; the decomposer, branch executor, verification and
recurrence stages never execute. -/
theorem runARDR_fast_path (env : PipelineEnv) (tier : NexusTier)
    (h : (stage0_TaskProfiler env.profilerResp tier).taskType = "conversation" ∨
         (stage0_TaskProfiler env.profilerResp tier).branches = []) :
    runARDR env tier =
      { finalResponse := env.conversationCall (chiefModelFor tier)
        budget := stage0_TaskProfiler env.profilerResp tier
        scratchpad := { entries := [], sharedArtifacts := [] }
        branchOutputs := []
        verification := none
        recurrenceCount := 0
        stagesRun := [Stage.profiler, Stage.conversation] } ∧
    Stage.decomposition ∉ (runARDR env tier).stagesRun ∧
    Stage.branches ∉ (runARDR env tier).stagesRun ∧
    Stage.verification ∉ (runARDR env tier).stagesRun ∧
    Stage.recurrence ∉ (runARDR env tier).stagesRun := by
  have he : runARDR env tier =
      { finalResponse := env.conversationCall (chiefModelFor tier)
        budget := stage0_TaskProfiler env.profilerResp tier
        scratchpad := { entries := [], sharedArtifacts := [] }
        branchOutputs := []
        verification := none
        recurrenceCount := 0
        stagesRun := [Stage.profiler, Stage.conversation] } := by
    unfold runARDR
    rw [if_pos h]
    rfl
  refine ⟨he, ?_, ?_, ?_, ?_⟩ <;> rw [he] <;> dsimp only <;> decide

/-- Witness for C3: a profiler response classifying the prompt as
conversational with an empty branch set takes the fast path. -/
theorem runARDR_fast_path_witness :
    ((stage0_TaskProfiler fastPathEnv.profilerResp NexusTier.high).taskType = "conversation" ∨
      (stage0_TaskProfiler fastPathEnv.profilerResp NexusTier.high).branches = []) ∧
    (runARDR fastPathEnv NexusTier.high).finalResponse =
      fastPathEnv.conversationCall (chiefModelFor NexusTier.high) ∧
    Stage.recurrence ∉ (runARDR fastPathEnv NexusTier.high).stagesRun := by
  have h : (stage0_TaskProfiler fastPathEnv.profilerResp NexusTier.high).taskType
      = "conversation" ∨
      (stage0_TaskProfiler fastPathEnv.profilerResp NexusTier.high).branches = [] :=
    Or.inl rfl
  have hr := runARDR_fast_path fastPathEnv NexusTier.high h
  exact ⟨h, by rw [hr.1], hr.2.2.2.2⟩

/-! ## C5: the uncertainty blending rule -/

/-- C5: on a verification pass over a non-empty branch collection the final
uncertainty score is exactly `(u + (1 - avgConfidence)) / 2`, where
`avgConfidence` is the arithmetic mean of the current branch confidences
and `u` is the model-reported uncertainty, which resolves to the default
`0.5` whenever the consistency response fails to parse. -/
theorem stageC_uncertainty_blend (branchOutputs : List BranchOutput)
    (pad : Scratchpad) (ce : Option CounterexamplePayload)
    (cs : Option ConsistencyPayload) (h : branchOutputs ≠ []) :
    (stageC_Verification branchOutputs pad ce cs).uncertaintyScore =
      some ((resolvedUncertainty cs +
        (1 - (branchOutputs.map BranchOutput.confidence).sum / (branchOutputs.length : ℚ))) / 2) ∧
    resolvedUncertainty none = 1/2 := by
  constructor
  · have hlen : ¬ branchOutputs.length = 0 := fun hh => h (List.length_eq_zero.mp hh)
    simp only [stageC_Verification, avgConfidence, if_neg hlen, Option.map_some']
  · rfl

/-- Witness for C5 at a singleton branch collection. -/
theorem stageC_uncertainty_blend_witness :
    ([weakOkBranch] ≠ ([] : List BranchOutput)) ∧
    (stageC_Verification [weakOkBranch] { entries := [], sharedArtifacts := [] }
        none none).uncertaintyScore =
      some ((resolvedUncertainty none +
        (1 - ([weakOkBranch].map BranchOutput.confidence).sum / (([weakOkBranch].length : ℕ) : ℚ))) / 2) := by
  refine ⟨by simp, ?_⟩
  exact (stageC_uncertainty_blend [weakOkBranch] { entries := [], sharedArtifacts := [] }
    none none (by simp)).1

/-! ## C7: profiler depth clamping -/

/-- C7 (amended): `allowedDepth` is `Math.min(proposal || 2, ceiling)` with
ceiling 3/2/1 for max/high/low — only the upper side is clamped, so the
result is an integer in `1..3` (and at most the tier ceiling) whenever the
model's proposal is absent, zero, unparsable, or a positive integer. -/
theorem stage0_allowedDepth_amended (parsed : Option ProfilerPayload)
    (tier : NexusTier) (h : depthProposalTame parsed) :
    ∃ n : ℕ, (stage0_TaskProfiler parsed tier).allowedDepth = (n : ℚ) ∧
      1 ≤ n ∧ n ≤ 3 ∧
      (stage0_TaskProfiler parsed tier).allowedDepth ≤ tierDepthCeiling tier := by
  have hceil : ∃ c : ℕ, tierDepthCeiling tier = (c : ℚ) ∧ 1 ≤ c ∧ c ≤ 3 := by
    cases tier
    · exact ⟨1, by norm_num [tierDepthCeiling], by norm_num, by norm_num⟩
    · exact ⟨2, by norm_num [tierDepthCeiling], by norm_num, by norm_num⟩
    · exact ⟨3, by norm_num [tierDepthCeiling], by norm_num, by norm_num⟩
  obtain ⟨c, hc, hc1, hc3⟩ := hceil
  cases parsed with
  | none =>
    exact ⟨c, by simpa [stage0_TaskProfiler] using hc, hc1, hc3,
      le_of_eq (by simp [stage0_TaskProfiler])⟩
  | some p =>
    have hres : ∃ m : ℕ, jsOrNum p.allowedDepth 2 = (m : ℚ) ∧ 1 ≤ m := by
      cases hd : p.allowedDepth with
      | none => exact ⟨2, by simp [jsOrNum], by norm_num⟩
      | some d =>
        simp only [depthProposalTame, hd] at h
        rcases h with h0 | ⟨m, hm1, hmd⟩
        · exact ⟨2, by simp [jsOrNum, h0], by norm_num⟩
        · refine ⟨m, ?_, hm1⟩
          have hmz : m ≠ 0 := by omega
          simp [jsOrNum, hmd, Nat.cast_eq_zero, hmz]
    obtain ⟨m, hm, hm1⟩ := hres
    refine ⟨min m c, ?_, le_min hm1 hc1, le_trans (min_le_right _ _) hc3, ?_⟩
    · simp [stage0_TaskProfiler, hm, hc, Nat.cast_min]
    · simp only [stage0_TaskProfiler]
      exact min_le_right (jsOrNum p.allowedDepth 2) (tierDepthCeiling tier)

/-- Witness for C7: an unparsable profiler response on the high tier. -/
theorem stage0_allowedDepth_amended_witness :
    depthProposalTame none ∧
    ∃ n : ℕ, (stage0_TaskProfiler none NexusTier.high).allowedDepth = (n : ℚ) ∧
      1 ≤ n ∧ n ≤ 3 ∧
      (stage0_TaskProfiler none NexusTier.high).allowedDepth ≤
        tierDepthCeiling NexusTier.high :=
  ⟨trivial, stage0_allowedDepth_amended none NexusTier.high trivial⟩

/-- Counterexample to C7 as stated: a (malformed) proposal of `-1` passes
straight through `Math.min(-1, 3)`, so the resulting `allowedDepth` is `-1`,
not an integer in the range 1-3. -/
theorem stage0_allowedDepth_cex :
    (stage0_TaskProfiler (some badDepthPayload) NexusTier.max).allowedDepth = -1 ∧
    ¬ (1 ≤ (stage0_TaskProfiler (some badDepthPayload) NexusTier.max).allowedDepth) := by
  constructor <;> decide

/-! ## C10: unknown-branch-only budgets reach an unguarded 0/0 -/

/-- C10: with a budget whose branch set is the non-empty `["quantum"]` —
entirely outside the fixed registry — the fast path is skipped, stage B
returns an empty branch collection, and stage C's uncertainty blend divides
by the zero branch count, so the stored uncertainty score is the JS `NaN`
(modelled as `none`), not a value in `[0,1]`. -/
theorem runARDR_unknown_branches_nan :
    (runARDR emptyBranchEnv NexusTier.high).branchOutputs = [] ∧
    ((runARDR emptyBranchEnv NexusTier.high).verification.map
      VerificationResult.uncertaintyScore) = some none ∧
    avgConfidence [] = none ∧
    Stage.branches ∈ (runARDR emptyBranchEnv NexusTier.high).stagesRun := by
  refine ⟨rfl, rfl, rfl, by decide⟩

section ConcreteEvaluation

/-! Within this section the Batteries rational-arithmetic operations are
unsealed so that closed propositions about concrete pipeline runs can be
settled by kernel evaluation (`decide`). -/

unseal Rat.add Rat.mul Rat.sub Rat.inv

/-! ## C4: weak-branch selection -/

/-- C4 (amended): a branch is classified weak iff its effective score — the
verifier's entry for the branch, falling back to the branch's own
confidence both when there is no entry and when the entry is the JS-falsy
score `0` — is below `0.5`, or some weak-point text contains the branch
name as a substring; and whenever the controller reaches the selection step
and no branch qualifies, stage D stops and returns the branch collection
unchanged. -/
theorem weak_branch_selection_amended (v : VerificationResult) (b : BranchOutput) :
    (isWeakBranch v b = true ↔
      (resolvedBranchScore v b < 1/2 ∨
        ∃ wp ∈ v.weakPoints, strIncludes wp b.branchName = true)) ∧
    (∀ (bos : List BranchOutput) (depth : ℚ) (cnt : ℕ)
        (refine : String → String × Option BranchPayload),
      (jsLtOpt v.uncertaintyScore (11/20) && v.weakPoints.isEmpty) = false →
      (cnt : ℚ) < depth →
      bos.filter (fun x => isWeakBranch v x) = [] →
      stageD_AdaptiveRecurrence bos v depth cnt refine =
        { shouldRecur := false, updatedBranches := bos }) := by
  constructor
  · simp [isWeakBranch, List.any_eq_true]
  · intro bos depth cnt refine h1 h2 h3
    unfold stageD_AdaptiveRecurrence
    rw [if_neg (by simp [h1]), if_neg (not_le.mpr h2)]
    rw [h3]
    rfl

/-- Counterexample to C4 as stated: with the explicit verifier score `0`
for the `logic` branch (and no weak points), the spec's rule classifies the
branch as weak (`0 < 0.5`), but the implementation's JS `||` discards the
falsy `0` and uses the branch's confidence `0.9`, classifying it as not
weak. -/
theorem weak_branch_selection_cex :
    isWeakBranch weakCexVerification weakCexBranch = false ∧
    isWeakBranchSpec weakCexVerification weakCexBranch = true ∧
    mapGet weakCexVerification.branchScores weakCexBranch.branchName = some 0 := by
  refine ⟨by decide, by decide, by decide⟩

/-- Witness for C4 at concrete inputs: a non-weak branch under a weak-point
list that does not mention it, and the resulting no-op stage D pass. -/
theorem weak_branch_selection_witness :
    ((jsLtOpt weakOkVerification.uncertaintyScore (11/20) &&
        weakOkVerification.weakPoints.isEmpty) = false) ∧
    ((0 : ℕ) : ℚ) < 2 ∧
    [weakCexBranch].filter (fun x => isWeakBranch weakOkVerification x) = [] ∧
    stageD_AdaptiveRecurrence [weakCexBranch] weakOkVerification 2 0
        (baseEnv.refineResp 0) =
      { shouldRecur := false, updatedBranches := [weakCexBranch] } := by
  refine ⟨by decide, by norm_num, by decide, ?_⟩
  exact (weak_branch_selection_amended weakOkVerification weakCexBranch).2
    [weakCexBranch] 2 0 (baseEnv.refineResp 0) (by decide) (by norm_num) (by decide)


/-! ## Lemmas about the recurrence loop -/

/-- The loop body bumps the counter by exactly one on a recurring pass and
leaves it unchanged otherwise. -/
lemma recurrenceBody_count (env : PipelineEnv) (depth : ℚ) (pad : Scratchpad)
    (s : LoopState) :
    ((recurrenceBody env depth pad s).2).recurrenceCount =
      if (recurrenceBody env depth pad s).1 then s.recurrenceCount + 1
      else s.recurrenceCount := by
  unfold recurrenceBody
  dsimp only
  split <;> rfl

/-- The loop body never touches the scratchpad (it is a parameter, not part
of the loop state): nothing to prove beyond the typing, recorded here as
the fact that the loop state carries no scratchpad at all. -/
lemma recurrenceLoop_zero (env : PipelineEnv) (depth : ℚ) (pad : Scratchpad)
    (s : LoopState) : recurrenceLoop env depth pad s 0 = s := rfl

/-- The recurrence counter never decreases across the loop. -/
lemma recurrenceLoop_count_mono (env : PipelineEnv) (depth : ℚ) (pad : Scratchpad) :
    ∀ (fuel : ℕ) (s : LoopState),
      s.recurrenceCount ≤ (recurrenceLoop env depth pad s fuel).recurrenceCount := by
  intro fuel
  induction fuel with
  | zero => intro s; exact le_rfl
  | succ n ih =>
    intro s
    simp only [recurrenceLoop]
    by_cases hg : (s.recurrenceCount : ℚ) < depth
    · rw [if_pos hg]
      have h2 := recurrenceBody_count env depth pad s
      by_cases hb : (recurrenceBody env depth pad s).1 = true
      · rw [if_pos hb]
        rw [if_pos hb] at h2
        have h1 := ih (recurrenceBody env depth pad s).2
        omega
      · rw [if_neg hb]
        rw [if_neg hb] at h2
        omega
    · rw [if_neg hg]

/-- As long as it starts at or below the depth ceiling, the counter stays
at or below `⌈allowedDepth⌉` (every increment is guarded by
`recurrenceCount < allowedDepth`). -/
lemma recurrenceLoop_count_le (env : PipelineEnv) (depth : ℚ) (pad : Scratchpad) :
    ∀ (fuel : ℕ) (s : LoopState), s.recurrenceCount ≤ qceilNat depth →
      (recurrenceLoop env depth pad s fuel).recurrenceCount ≤ qceilNat depth := by
  intro fuel
  induction fuel with
  | zero => intro s h; exact h
  | succ n ih =>
    intro s h
    simp only [recurrenceLoop]
    by_cases hg : (s.recurrenceCount : ℚ) < depth
    · rw [if_pos hg]
      have h2 := recurrenceBody_count env depth pad s
      have hs1 : s.recurrenceCount + 1 ≤ qceilNat depth := succ_le_qceilNat hg
      by_cases hb : (recurrenceBody env depth pad s).1 = true
      · rw [if_pos hb]
        rw [if_pos hb] at h2
        exact ih (recurrenceBody env depth pad s).2 (by omega)
      · rw [if_neg hb]
        rw [if_neg hb] at h2
        omega
    · rw [if_neg hg]
      exact h

/-- One unit of fuel beyond `⌈allowedDepth⌉ - recurrenceCount` changes
nothing: the loop has already exited. -/
lemma recurrenceLoop_fuel_stable (env : PipelineEnv) (depth : ℚ) (pad : Scratchpad) :
    ∀ (fuel : ℕ) (s : LoopState), qceilNat depth ≤ s.recurrenceCount + fuel →
      recurrenceLoop env depth pad s (fuel + 1) = recurrenceLoop env depth pad s fuel := by
  intro fuel
  induction fuel with
  | zero =>
    intro s h
    have hle : depth ≤ (s.recurrenceCount : ℚ) := by
      have h1 : depth ≤ (qceilNat depth : ℚ) := le_qceilNat depth
      have h2 : (qceilNat depth : ℚ) ≤ (s.recurrenceCount : ℚ) := by
        exact_mod_cast (by omega : qceilNat depth ≤ s.recurrenceCount)
      linarith
    simp only [recurrenceLoop]
    rw [if_neg (not_lt.mpr hle)]
  | succ n ih =>
    intro s h
    simp only [recurrenceLoop]
    by_cases hg : (s.recurrenceCount : ℚ) < depth
    · rw [if_pos hg, if_pos hg]
      have h2 := recurrenceBody_count env depth pad s
      by_cases hb : (recurrenceBody env depth pad s).1 = true
      · rw [if_pos hb, if_pos hb]
        rw [if_pos hb] at h2
        exact ih (recurrenceBody env depth pad s).2 (by omega)
      · rw [if_neg hb, if_neg hb]
    · rw [if_neg hg, if_neg hg]

/-- Any surplus fuel beyond the ceiling bound is irrelevant: the loop has
terminated by then. -/
lemma recurrenceLoop_fuel_add (env : PipelineEnv) (depth : ℚ) (pad : Scratchpad) :
    ∀ (extra fuel : ℕ) (s : LoopState), qceilNat depth ≤ s.recurrenceCount + fuel →
      recurrenceLoop env depth pad s (fuel + extra) = recurrenceLoop env depth pad s fuel := by
  intro extra
  induction extra with
  | zero => intro fuel s _; rfl
  | succ n ih =>
    intro fuel s h
    have hstep : fuel + (n + 1) = (fuel + n) + 1 := by omega
    rw [hstep, recurrenceLoop_fuel_stable env depth pad (fuel + n) s (by omega),
      ih fuel s h]

/-- Stage D refuses to recur whenever the counter has reached the depth
budget, regardless of the uncertainty value. -/
lemma stageD_stops_at_depth (bos : List BranchOutput) (v : VerificationResult)
    (depth : ℚ) (cnt : ℕ) (refine : String → String × Option BranchPayload)
    (h : depth ≤ (cnt : ℚ)) :
    (stageD_AdaptiveRecurrence bos v depth cnt refine).shouldRecur = false := by
  unfold stageD_AdaptiveRecurrence
  by_cases h1 : (jsLtOpt v.uncertaintyScore (11/20) && v.weakPoints.isEmpty) = true
  · rw [if_pos h1]
  · rw [if_neg h1, if_pos h]

/-! ## C2: the recurrence budget -/

/-- C2 (amended): the recurrence counter starts at 0, increases by exactly
one per recurring pass and never decreases, the loop terminates (extra fuel
beyond `⌈allowedDepth⌉ + 1` never changes the result), stage D refuses to
recur once `recurrenceCount ≥ allowedDepth`, and the final counter is at
most `⌈allowedDepth⌉`; hence `recurrenceCount ≤ allowedDepth` holds after
the loop whenever `allowedDepth` is an integer — for a fractional depth
(possible because the profiler clamp is one-sided, cf. C7) the final
counter can exceed `allowedDepth` itself. -/
theorem recurrence_budget_amended (env : PipelineEnv) (tier : NexusTier) :
    (runARDR env tier).recurrenceCount ≤
      qceilNat (stage0_TaskProfiler env.profilerResp tier).allowedDepth ∧
    (∀ n : ℕ, (stage0_TaskProfiler env.profilerResp tier).allowedDepth = (n : ℚ) →
      ((runARDR env tier).recurrenceCount : ℚ) ≤
        (stage0_TaskProfiler env.profilerResp tier).allowedDepth) ∧
    (∀ (bos : List BranchOutput) (v : VerificationResult) (cnt : ℕ)
        (refine : String → String × Option BranchPayload),
      (stage0_TaskProfiler env.profilerResp tier).allowedDepth ≤ (cnt : ℚ) →
      (stageD_AdaptiveRecurrence bos v
        (stage0_TaskProfiler env.profilerResp tier).allowedDepth cnt refine).shouldRecur
        = false) ∧
    (∀ (pad : Scratchpad) (s : LoopState) (fuel : ℕ),
      s.recurrenceCount ≤
        (recurrenceLoop env (stage0_TaskProfiler env.profilerResp tier).allowedDepth
          pad s fuel).recurrenceCount) ∧
    (∀ (pad : Scratchpad) (s : LoopState),
      ((recurrenceBody env (stage0_TaskProfiler env.profilerResp tier).allowedDepth
          pad s).2).recurrenceCount =
        if (recurrenceBody env (stage0_TaskProfiler env.profilerResp tier).allowedDepth
            pad s).1 then s.recurrenceCount + 1 else s.recurrenceCount) ∧
    (∀ (pad : Scratchpad) (s : LoopState) (fuel extra : ℕ),
      qceilNat (stage0_TaskProfiler env.profilerResp tier).allowedDepth ≤
          s.recurrenceCount + fuel →
      recurrenceLoop env (stage0_TaskProfiler env.profilerResp tier).allowedDepth
          pad s (fuel + extra) =
        recurrenceLoop env (stage0_TaskProfiler env.profilerResp tier).allowedDepth
          pad s fuel) := by
  have hb1 : (runARDR env tier).recurrenceCount ≤
      qceilNat (stage0_TaskProfiler env.profilerResp tier).allowedDepth := by
    simp only [runARDR]
    by_cases hfp : (stage0_TaskProfiler env.profilerResp tier).taskType = "conversation" ∨
        (stage0_TaskProfiler env.profilerResp tier).branches = []
    · rw [if_pos hfp]
      exact Nat.zero_le _
    · rw [if_neg hfp]
      exact recurrenceLoop_count_le env _ _ _ _ (Nat.zero_le _)
  refine ⟨hb1, ?_, ?_, ?_, ?_, ?_⟩
  · intro n hn
    rw [hn]
    have : qceilNat ((n : ℚ)) = n := by
      unfold qceilNat
      rw [Int.ceil_natCast]
      exact Int.toNat_natCast n
    rw [hn] at hb1
    rw [this] at hb1
    exact_mod_cast hb1
  · intro bos v cnt refine h
    exact stageD_stops_at_depth bos v _ cnt refine h
  · intro pad s fuel
    exact recurrenceLoop_count_mono env _ pad fuel s
  · intro pad s
    exact recurrenceBody_count env _ pad s
  · intro pad s fuel extra h
    exact recurrenceLoop_fuel_add env _ pad extra fuel s h

/-- Witness for C2: on the neutral oracle and the high tier the profiled
depth is the integer 2 and the completed run's counter respects it. -/
theorem recurrence_budget_amended_witness :
    ((stage0_TaskProfiler baseEnv.profilerResp NexusTier.high).allowedDepth = ((2 : ℕ) : ℚ)) ∧
    ((runARDR baseEnv NexusTier.high).recurrenceCount : ℚ) ≤
      (stage0_TaskProfiler baseEnv.profilerResp NexusTier.high).allowedDepth := by
  have h2 : (stage0_TaskProfiler baseEnv.profilerResp NexusTier.high).allowedDepth
      = ((2 : ℕ) : ℚ) := by decide
  exact ⟨h2, (recurrence_budget_amended baseEnv NexusTier.high).2.1 2 h2⟩

/-- Counterexample to C2 as stated: with the fractional profiled depth
`2.5` (max tier) and a permanently weak branch, the loop recurs three times
and terminates with `recurrenceCount = 3 > 2.5 = allowedDepth`, violating
the claimed post-loop invariant `recurrenceCount ≤ allowedDepth`. -/
theorem recurrence_budget_cex :
    (runARDR depthCexEnv NexusTier.max).recurrenceCount = 3 ∧
    (runARDR depthCexEnv NexusTier.max).budget.allowedDepth = 5/2 ∧
    ¬ (((runARDR depthCexEnv NexusTier.max).recurrenceCount : ℚ) ≤
        (runARDR depthCexEnv NexusTier.max).budget.allowedDepth) := by
  refine ⟨by decide, by decide, by decide⟩

/-! ## C1: confidence and uncertainty ranges -/

/-- The resolved model-reported uncertainty inherits the payload bounds
(the default `0.5` is in range). -/
lemma resolvedUncertainty_bounds {cs : Option ConsistencyPayload}
    (h : ConsistencyUncOK cs) :
    0 ≤ resolvedUncertainty cs ∧ resolvedUncertainty cs ≤ 1 := by
  cases cs with
  | none => norm_num [resolvedUncertainty]
  | some p =>
    simp only [resolvedUncertainty]
    exact jsOrNum_bounds (fun c hc => h p rfl c hc) (by norm_num)

/-- Stage B produces in-range confidences from well-formed payloads (the
degraded parse-failure output has the fixed confidence `0.5`). -/
lemma mkBranchOutput_conf_ok (bn raw : String) (p : Option BranchPayload)
    (hp : BranchPayloadConfOK p) :
    0 ≤ (mkBranchOutput bn raw p).confidence ∧
      (mkBranchOutput bn raw p).confidence ≤ 1 := by
  cases p with
  | none => norm_num [mkBranchOutput]
  | some q =>
    simp only [mkBranchOutput]
    exact jsOrNum_bounds (fun c hc => hp q rfl c hc) (by norm_num)

/-- All confidences out of stage B are in range under well-formed payloads. -/
lemma stageB_confs_ok (resp : String → String × Option BranchPayload)
    (hresp : ∀ bn, BranchPayloadConfOK (resp bn).2) :
    ∀ (branches : List String) (pad : Scratchpad) (clock : ℕ),
      ConfsOK (stageB_DendriticBranches branches resp pad clock).1 := by
  intro branches
  induction branches with
  | nil =>
    intro pad clock b hb
    simp [stageB_DendriticBranches] at hb
  | cons bn rest ih =>
    intro pad clock b hb
    simp only [stageB_DendriticBranches] at hb
    cases hcfg : branchConfigs bn with
    | none =>
      rw [hcfg] at hb
      exact ih pad clock b hb
    | some m =>
      rw [hcfg] at hb
      dsimp only at hb
      rcases List.mem_cons.mp hb with h1 | h2
      · subst h1
        exact mkBranchOutput_conf_ok _ _ _ (hresp bn)
      · exact ih _ _ b h2

/-- A successfully parsed refinement keeps the confidence in range: the
`+0.1` boost is capped at `0.95`. -/
lemma refineBranch_conf_ok (branch : BranchOutput) (raw : String)
    (refined : Option BranchPayload)
    (hb : 0 ≤ branch.confidence ∧ branch.confidence ≤ 1)
    (hr : BranchPayloadConfOK refined) (hs : refined ≠ none) :
    0 ≤ (refineBranch branch raw refined).confidence ∧
      (refineBranch branch raw refined).confidence ≤ 1 := by
  cases refined with
  | none => exact absurd rfl hs
  | some r =>
    simp only [refineBranch]
    have hx := jsOrNum_bounds (fun c hc => hr r rfl c hc) hb
    constructor
    · refine le_min ?_ ?_
      · linarith [hx.1]
      · norm_num
    · exact le_trans (min_le_right _ _) (by norm_num)

/-- Stage D keeps all confidences in range when every refinement response
parses with a well-formed confidence. -/
lemma stageD_confs_ok (bos : List BranchOutput) (v : VerificationResult)
    (depth : ℚ) (cnt : ℕ) (refine : String → String × Option BranchPayload)
    (hbos : ConfsOK bos)
    (hr : ∀ bn, BranchPayloadConfOK (refine bn).2)
    (hs : ∀ bn, (refine bn).2 ≠ none) :
    ConfsOK (stageD_AdaptiveRecurrence bos v depth cnt refine).updatedBranches := by
  unfold stageD_AdaptiveRecurrence
  by_cases h1 : (jsLtOpt v.uncertaintyScore (11/20) && v.weakPoints.isEmpty) = true
  · rw [if_pos h1]
    exact hbos
  · rw [if_neg h1]
    by_cases h2 : depth ≤ (cnt : ℚ)
    · rw [if_pos h2]
      exact hbos
    · rw [if_neg h2]
      dsimp only
      by_cases h3 : (bos.filter (fun b => isWeakBranch v b)).isEmpty = true
      · rw [if_pos h3]
        exact hbos
      · rw [if_neg h3]
        intro b hb
        dsimp only at hb
        rcases List.mem_map.mp hb with ⟨a, ha, rfl⟩
        by_cases hw : (((bos.filter (fun b => isWeakBranch v b)).find?
            (fun wb => wb.branchName = a.branchName)).isNone) = true
        · rw [if_pos hw]
          exact hbos a ha
        · rw [if_neg hw]
          exact refineBranch_conf_ok a _ _ (hbos a ha) (hr a.branchName) (hs a.branchName)

/-- The blended uncertainty of stage C lies in `[0,1]` whenever the branch
confidences and the reported uncertainty do (whenever it is a number at
all, i.e. the branch collection is non-empty). -/
lemma stageC_uncertainty_ok (bos : List BranchOutput) (pad : Scratchpad)
    (ce : Option CounterexamplePayload) (cs : Option ConsistencyPayload)
    (hbos : ConfsOK bos) (hcs : ConsistencyUncOK cs) :
    ∀ u, (stageC_Verification bos pad ce cs).uncertaintyScore = some u →
      0 ≤ u ∧ u ≤ 1 := by
  intro u hu
  simp only [stageC_Verification, avgConfidence] at hu
  by_cases hlen : bos.length = 0
  · rw [if_pos hlen] at hu
    simp at hu
  · rw [if_neg hlen] at hu
    simp only [Option.map_some'] at hu
    have hu2 : (resolvedUncertainty cs +
        (1 - (bos.map BranchOutput.confidence).sum / (bos.length : ℚ))) / 2 = u :=
      Option.some.inj hu
    have hsum := list_sum_bounds (bos.map BranchOutput.confidence)
      (by
        intro x hx
        rcases List.mem_map.mp hx with ⟨b, hb, rfl⟩
        exact hbos b hb)
    have hres := resolvedUncertainty_bounds hcs
    have hlpos : (0 : ℚ) < (bos.length : ℚ) := by
      exact_mod_cast Nat.pos_of_ne_zero hlen
    have havg0 : 0 ≤ (bos.map BranchOutput.confidence).sum / (bos.length : ℚ) :=
      div_nonneg hsum.1 hlpos.le
    have havg1 : (bos.map BranchOutput.confidence).sum / (bos.length : ℚ) ≤ 1 := by
      rw [div_le_one hlpos]
      calc (bos.map BranchOutput.confidence).sum
          ≤ ((bos.map BranchOutput.confidence).length : ℚ) := hsum.2
        _ = (bos.length : ℚ) := by rw [List.length_map]
    subst hu2
    constructor
    · linarith [hres.1]
    · linarith [hres.2]

/-- One loop-body step preserves the range invariant. -/
lemma recurrenceBody_ok (env : PipelineEnv) (depth : ℚ) (pad : Scratchpad)
    (s : LoopState) (hE : EnvPayloadsOK env) (hs : LoopStateOK s) :
    LoopStateOK (recurrenceBody env depth pad s).2 := by
  obtain ⟨hB, hR, hC, hRs⟩ := hE
  have hD : ConfsOK (stageD_AdaptiveRecurrence s.branchOutputs s.verification depth
      s.recurrenceCount (env.refineResp s.recurrenceCount)).updatedBranches :=
    stageD_confs_ok _ _ _ _ _ hs.1 (hR _) (hRs _)
  unfold recurrenceBody
  dsimp only
  by_cases hb : (stageD_AdaptiveRecurrence s.branchOutputs s.verification depth
      s.recurrenceCount (env.refineResp s.recurrenceCount)).shouldRecur = true
  · rw [if_pos hb]
    dsimp only
    exact ⟨hD, fun u hu => stageC_uncertainty_ok _ pad _ _ hD (hC _) u hu⟩
  · rw [if_neg hb]
    dsimp only
    exact ⟨hD, hs.2⟩

/-- The whole recurrence loop preserves the range invariant. -/
lemma recurrenceLoop_ok (env : PipelineEnv) (depth : ℚ) (pad : Scratchpad)
    (hE : EnvPayloadsOK env) :
    ∀ (fuel : ℕ) (s : LoopState), LoopStateOK s →
      LoopStateOK (recurrenceLoop env depth pad s fuel) := by
  intro fuel
  induction fuel with
  | zero => intro s h; exact h
  | succ n ih =>
    intro s h
    simp only [recurrenceLoop]
    by_cases hg : (s.recurrenceCount : ℚ) < depth
    · rw [if_pos hg]
      by_cases hb : (recurrenceBody env depth pad s).1 = true
      · rw [if_pos hb]
        exact ih _ (recurrenceBody_ok env depth pad s hE h)
      · rw [if_neg hb]
        exact recurrenceBody_ok env depth pad s hE h
    · rw [if_neg hg]
      exact h

/-- C1 (amended): the pipeline applies no clamping to parsed values — a
branch confidence is whatever the payload reports (default `0.5`), a
successful refinement is capped at `0.95`, and a refinement parse failure
adds `+0.1` with no cap.  Consequently the `[0,1]` invariant holds for all
branch confidences and for every numeric uncertainty score exactly under
the provisos of `EnvPayloadsOK`: every parsed confidence and uncertainty
lies in `[0,1]` and every refinement response parses. -/
theorem confidence_clamping_amended (env : PipelineEnv) (tier : NexusTier)
    (hE : EnvPayloadsOK env) :
    (∀ b ∈ (runARDR env tier).branchOutputs, 0 ≤ b.confidence ∧ b.confidence ≤ 1) ∧
    (∀ v, (runARDR env tier).verification = some v →
      ∀ u, v.uncertaintyScore = some u → 0 ≤ u ∧ u ≤ 1) := by
  simp only [runARDR]
  by_cases hfp : (stage0_TaskProfiler env.profilerResp tier).taskType = "conversation" ∨
      (stage0_TaskProfiler env.profilerResp tier).branches = []
  · rw [if_pos hfp]
    constructor
    · intro b hb
      simp at hb
    · intro v hv
      simp at hv
  · rw [if_neg hfp]
    dsimp only
    have hB0 : ConfsOK (stageB_DendriticBranches
        (stage0_TaskProfiler env.profilerResp tier).branches env.branchResp
        { entries := [], sharedArtifacts := [] } 0).1 :=
      stageB_confs_ok env.branchResp hE.1 _ _ _
    have hS0 : LoopStateOK
        { branchOutputs := (stageB_DendriticBranches
            (stage0_TaskProfiler env.profilerResp tier).branches env.branchResp
            { entries := [], sharedArtifacts := [] } 0).1
          verification := stageC_Verification
            (stageB_DendriticBranches
              (stage0_TaskProfiler env.profilerResp tier).branches env.branchResp
              { entries := [], sharedArtifacts := [] } 0).1
            (stageB_DendriticBranches
              (stage0_TaskProfiler env.profilerResp tier).branches env.branchResp
              { entries := [], sharedArtifacts := [] } 0).2.1
            (env.counterexResp 0) (env.consistencyResp 0)
          recurrenceCount := 0
          trace := [] } := by
      refine ⟨hB0, ?_⟩
      intro u hu
      dsimp only at hu
      exact stageC_uncertainty_ok _ _ _ _ hB0 (hE.2.2.1 0) u hu
    have hfin := recurrenceLoop_ok env
      (stage0_TaskProfiler env.profilerResp tier).allowedDepth
      (stageB_DendriticBranches
        (stage0_TaskProfiler env.profilerResp tier).branches env.branchResp
        { entries := [], sharedArtifacts := [] } 0).2.1 hE
      (qceilNat (stage0_TaskProfiler env.profilerResp tier).allowedDepth + 1) _ hS0
    refine ⟨hfin.1, ?_⟩
    intro v hv
    have hv2 := Option.some.inj hv
    rw [← hv2]
    exact hfin.2

/-- Witness for C1 (amended): a run whose oracle satisfies all the
well-formedness provisos keeps every branch confidence in `[0,1]`. -/
theorem confidence_clamping_amended_witness :
    EnvPayloadsOK clampOkEnv ∧
    (∀ b ∈ (runARDR clampOkEnv NexusTier.low).branchOutputs,
      0 ≤ b.confidence ∧ b.confidence ≤ 1) := by
  have hE : EnvPayloadsOK clampOkEnv := by
    refine ⟨?_, ?_, ?_, ?_⟩
    · intro bn q hq
      exact absurd hq (by simp [clampOkEnv, baseEnv])
    · intro k bn q hq c hc
      have hq2 : ({ hypotheses := some ["h1"]
                    artifacts := none
                    notes := some "n1"
                    contradictions := none
                    confidence := some (7/10) } : BranchPayload) = q :=
        Option.some.inj hq
      subst hq2
      have hc2 : some ((7:ℚ)/10) = some c := hc
      cases Option.some.inj hc2
      constructor <;> norm_num
    · intro k p hp
      exact absurd hp (by simp [clampOkEnv, baseEnv])
    · intro k bn h
      simp [clampOkEnv, baseEnv] at h
  exact ⟨hE, (confidence_clamping_amended clampOkEnv NexusTier.low hE).1⟩

/-- Counterexample to C1 as stated: a branch payload reporting the
malformed confidence `1.5` passes through stage B unclamped, a completed
run ends with that confidence in place, and the blended uncertainty score
of the same run is the negative number `-0.2` — both outside `[0,1]`. -/
theorem confidence_clamping_cex :
    ((runARDR clampCexEnv NexusTier.low).branchOutputs.map BranchOutput.confidence
      = [3/2]) ∧
    ((runARDR clampCexEnv NexusTier.low).branchOutputs.any
      (fun b => decide (1 < b.confidence)) = true) ∧
    ((runARDR clampCexEnv NexusTier.low).verification.map
      VerificationResult.uncertaintyScore = some (some (-(1/5)))) ∧
    (-(1/5) : ℚ) < 0 := by
  refine ⟨by decide, by decide, by decide, by norm_num⟩

/-! ## C6: the scratchpad log -/

/-- Both arms of `mkBranchOutput` tag the output with the requested branch
name. -/
lemma mkBranchOutput_branchName (bn raw : String) (p : Option BranchPayload) :
    (mkBranchOutput bn raw p).branchName = bn := by
  cases p <;> rfl

/-- Folding hypothesis pushes only appends to the entry log. -/
lemma foldlPush_entries_extend :
    ∀ (hl : List String) (p : Scratchpad × ℕ) (bn : String),
      p.1.entries <+:
        (hl.foldl (fun acc h => pushEntry acc.1 acc.2 bn h .hypothesis) p).1.entries := by
  intro hl
  induction hl with
  | nil => intro p bn; exact List.prefix_rfl
  | cons a t ih =>
    intro p bn
    simp only [List.foldl_cons]
    refine List.IsPrefix.trans ?_ (ih (pushEntry p.1 p.2 bn a .hypothesis) bn)
    exact List.prefix_append p.1.entries _

/-- Every hypothesis in the folded list ends up as a tagged entry. -/
lemma foldlPush_hyp_mem :
    ∀ (hl : List String) (p : Scratchpad × ℕ) (bn h : String), h ∈ hl →
      ∃ t, (⟨bn, t, h, .hypothesis⟩ : ScratchpadEntry) ∈
        (hl.foldl (fun acc x => pushEntry acc.1 acc.2 bn x .hypothesis) p).1.entries := by
  intro hl
  induction hl with
  | nil => intro p bn h hh; simp at hh
  | cons a t ih =>
    intro p bn h hh
    simp only [List.foldl_cons]
    rcases List.mem_cons.mp hh with rfl | hh2
    · refine ⟨p.2, ?_⟩
      apply (foldlPush_entries_extend t (pushEntry p.1 p.2 bn h .hypothesis) bn).subset
      simp [pushEntry]
    · exact ih (pushEntry p.1 p.2 bn a .hypothesis) bn h hh2

/-- A completed branch only appends to the entry log. -/
lemma pushBranchEntries_entries_extend (pad : Scratchpad) (clock : ℕ)
    (out : BranchOutput) :
    pad.entries <+: (pushBranchEntries pad clock out).1.entries := by
  unfold pushBranchEntries
  dsimp only
  refine List.IsPrefix.trans ?_
    (foldlPush_entries_extend out.hypotheses _ out.branchName)
  exact List.prefix_append pad.entries _

/-- A completed branch appends its notes as a tagged note entry. -/
lemma pushBranchEntries_note_mem (pad : Scratchpad) (clock : ℕ) (out : BranchOutput) :
    ∃ t, (⟨out.branchName, t, out.notes, .note⟩ : ScratchpadEntry) ∈
      (pushBranchEntries pad clock out).1.entries := by
  refine ⟨clock, ?_⟩
  unfold pushBranchEntries
  dsimp only
  apply (foldlPush_entries_extend out.hypotheses _ out.branchName).subset
  simp [pushEntry]

/-- A completed branch appends each of its hypotheses as a tagged entry. -/
lemma pushBranchEntries_hyp_mem (pad : Scratchpad) (clock : ℕ) (out : BranchOutput)
    (h : String) (hh : h ∈ out.hypotheses) :
    ∃ t, (⟨out.branchName, t, h, .hypothesis⟩ : ScratchpadEntry) ∈
      (pushBranchEntries pad clock out).1.entries := by
  unfold pushBranchEntries
  dsimp only
  exact foldlPush_hyp_mem out.hypotheses _ out.branchName h hh

/-- Stage B only appends to the entry log (append-only across the whole
fan-out). -/
lemma stageB_entries_extend :
    ∀ (branches : List String) (resp : String → String × Option BranchPayload)
      (pad : Scratchpad) (clock : ℕ),
      pad.entries <+: (stageB_DendriticBranches branches resp pad clock).2.1.entries := by
  intro branches
  induction branches with
  | nil => intro resp pad clock; exact List.prefix_rfl
  | cons bn rest ih =>
    intro resp pad clock
    simp only [stageB_DendriticBranches]
    cases branchConfigs bn with
    | none =>
      dsimp only
      exact ih resp pad clock
    | some m =>
      dsimp only
      exact List.IsPrefix.trans
        (pushBranchEntries_entries_extend pad clock
          (mkBranchOutput bn (resp bn).1 (resp bn).2))
        (ih resp _ _)

/-- Every branch stage B actually executes (requested and registered)
leaves its note and each of its hypotheses in the log, tagged with the
branch name and a timestamp. -/
lemma stageB_branch_entries :
    ∀ (branches : List String) (resp : String → String × Option BranchPayload)
      (pad : Scratchpad) (clock : ℕ) (bn : String),
      bn ∈ branches → branchConfigs bn ≠ none →
      (∃ t, (⟨bn, t, (mkBranchOutput bn (resp bn).1 (resp bn).2).notes, .note⟩ :
          ScratchpadEntry) ∈
        (stageB_DendriticBranches branches resp pad clock).2.1.entries) ∧
      (∀ h ∈ (mkBranchOutput bn (resp bn).1 (resp bn).2).hypotheses,
        ∃ t, (⟨bn, t, h, .hypothesis⟩ : ScratchpadEntry) ∈
          (stageB_DendriticBranches branches resp pad clock).2.1.entries) := by
  intro branches
  induction branches with
  | nil =>
    intro resp pad clock bn hmem
    simp at hmem
  | cons a rest ih =>
    intro resp pad clock bn hmem hcfg
    simp only [stageB_DendriticBranches]
    rcases List.mem_cons.mp hmem with rfl | hmem2
    · cases hc : branchConfigs bn with
      | none => exact absurd hc hcfg
      | some m =>
        dsimp only
        constructor
        · obtain ⟨t, ht⟩ := pushBranchEntries_note_mem pad clock
            (mkBranchOutput bn (resp bn).1 (resp bn).2)
          rw [mkBranchOutput_branchName] at ht
          exact ⟨t, (stageB_entries_extend rest resp _ _).subset ht⟩
        · intro h hh
          obtain ⟨t, ht⟩ := pushBranchEntries_hyp_mem pad clock
            (mkBranchOutput bn (resp bn).1 (resp bn).2) h hh
          rw [mkBranchOutput_branchName] at ht
          exact ⟨t, (stageB_entries_extend rest resp _ _).subset ht⟩
    · cases branchConfigs a with
      | none =>
        dsimp only
        exact ih resp pad clock bn hmem2 hcfg
      | some m =>
        dsimp only
        exact ih resp _ _ bn hmem2 hcfg

/-- C6 (amended): the scratchpad log is append-only and is written by every
initial branch invocation — each executed branch appends its notes and each
hypothesis as distinct entries tagged with the branch name and a timestamp
— but recurrent invocations never write to it: after the full run,
recurrence passes included, the scratchpad is exactly the one stage B
produced. -/
theorem scratchpad_append_only_amended (env : PipelineEnv) (tier : NexusTier)
    (hfp : ¬ ((stage0_TaskProfiler env.profilerResp tier).taskType = "conversation" ∨
        (stage0_TaskProfiler env.profilerResp tier).branches = [])) :
    ((runARDR env tier).scratchpad =
      (stageB_DendriticBranches (stage0_TaskProfiler env.profilerResp tier).branches
        env.branchResp { entries := [], sharedArtifacts := [] } 0).2.1) ∧
    (∀ (branches : List String) (resp : String → String × Option BranchPayload)
        (pad : Scratchpad) (clock : ℕ),
      pad.entries <+: (stageB_DendriticBranches branches resp pad clock).2.1.entries) ∧
    (∀ bn ∈ (stage0_TaskProfiler env.profilerResp tier).branches,
      branchConfigs bn ≠ none →
      (∃ t, (⟨bn, t, (mkBranchOutput bn (env.branchResp bn).1 (env.branchResp bn).2).notes,
          .note⟩ : ScratchpadEntry) ∈ (runARDR env tier).scratchpad.entries) ∧
      (∀ h ∈ (mkBranchOutput bn (env.branchResp bn).1 (env.branchResp bn).2).hypotheses,
        ∃ t, (⟨bn, t, h, .hypothesis⟩ : ScratchpadEntry) ∈
          (runARDR env tier).scratchpad.entries)) := by
  have hpad : (runARDR env tier).scratchpad =
      (stageB_DendriticBranches (stage0_TaskProfiler env.profilerResp tier).branches
        env.branchResp { entries := [], sharedArtifacts := [] } 0).2.1 := by
    simp only [runARDR]
    rw [if_neg hfp]
  refine ⟨hpad, stageB_entries_extend, ?_⟩
  intro bn hmem hcfg
  rw [hpad]
  exact stageB_branch_entries (stage0_TaskProfiler env.profilerResp tier).branches
    env.branchResp { entries := [], sharedArtifacts := [] } 0 bn hmem hcfg

/-- Witness for C6 (amended): the refinement-heavy oracle run skips the
fast path and its final scratchpad is exactly stage B's. -/
theorem scratchpad_append_only_amended_witness :
    (¬ ((stage0_TaskProfiler padCexEnv.profilerResp NexusTier.low).taskType
          = "conversation" ∨
        (stage0_TaskProfiler padCexEnv.profilerResp NexusTier.low).branches = [])) ∧
    (runARDR padCexEnv NexusTier.low).scratchpad =
      (stageB_DendriticBranches
        (stage0_TaskProfiler padCexEnv.profilerResp NexusTier.low).branches
        padCexEnv.branchResp { entries := [], sharedArtifacts := [] } 0).2.1 := by
  have h : ¬ ((stage0_TaskProfiler padCexEnv.profilerResp NexusTier.low).taskType
        = "conversation" ∨
      (stage0_TaskProfiler padCexEnv.profilerResp NexusTier.low).branches = []) := by
    decide
  exact ⟨h, (scratchpad_append_only_amended padCexEnv NexusTier.low h).1⟩

/-- Counterexample to C6 as stated: a run with one recurrence pass whose
refinement parses fresh notes `"improved"` and a fresh hypothesis `"h1"`,
yet the scratchpad still holds exactly the two entries of the initial
invocation — the recurrent branch invocation wrote nothing. -/
theorem scratchpad_append_only_cex :
    (runARDR padCexEnv NexusTier.low).recurrenceCount = 1 ∧
    (runARDR padCexEnv NexusTier.low).branchOutputs.map BranchOutput.notes
      = ["improved"] ∧
    (runARDR padCexEnv NexusTier.low).branchOutputs.map BranchOutput.hypotheses
      = [["h1"]] ∧
    (runARDR padCexEnv NexusTier.low).scratchpad.entries.map ScratchpadEntry.content
      = ["n0", "h0"] := by
  refine ⟨by decide, by decide, by decide, by decide⟩

/-! ## C8: the Response Interpreter -/

/-- In a strictly increasing list, every element is at most the last one. -/
lemma pairwise_getLast_ge (l : List ℕ) (hp : l.Pairwise (· < ·)) (j : ℕ)
    (hj : l.getLast? = some j) : ∀ x ∈ l, x ≤ j := by
  intro x hx
  rcases List.eq_nil_or_concat l with rfl | ⟨l2, a, rfl⟩
  · simp at hx
  · rw [List.concat_eq_append] at hp hj hx
    rw [List.getLast?_concat] at hj
    have hja : a = j := Option.some.inj hj
    subst hja
    rcases List.mem_append.mp hx with hx2 | hx3
    · exact ((List.pairwise_append.mp hp).2.2 x hx2 a (by simp)).le
    · rcases List.mem_singleton.mp hx3 with rfl
      exact le_rfl

/-- `find?` over `range n` yields the least index satisfying the predicate. -/
lemma find?_range_first {n : ℕ} {p : ℕ → Bool} {i : ℕ}
    (h : (List.range n).find? p = some i) :
    p i = true ∧ i < n ∧ ∀ k, k < i → p k = false := by
  rw [List.find?_eq_some_iff_getElem] at h
  obtain ⟨hp, idx, hidx, hval, hmin⟩ := h
  have hidx' : idx < n := by simpa using hidx
  rw [List.getElem_range] at hval
  subst hval
  refine ⟨hp, hidx', ?_⟩
  intro k hk
  have hbe := hmin k hk
  rw [List.getElem_range] at hbe
  simpa using hbe

/-- `getLast?` of `filter` over `range n` yields the greatest index below
`n` satisfying the predicate. -/
lemma filter_getLast_last {n : ℕ} {p : ℕ → Bool} {j : ℕ}
    (h : ((List.range n).filter p).getLast? = some j) :
    p j = true ∧ j < n ∧ ∀ l, j < l → l < n → p l = false := by
  have hmem : j ∈ (List.range n).filter p := by
    obtain ⟨hne, heq⟩ := List.mem_getLast?_eq_getLast ((Option.mem_def).mpr h)
    rw [heq]
    exact List.getLast_mem hne
  have hpj := (List.mem_filter.mp hmem).2
  have hjn : j < n := List.mem_range.mp (List.mem_filter.mp hmem).1
  refine ⟨hpj, hjn, ?_⟩
  intro l hjl hln
  by_contra hpl
  have hpl' : p l = true := by
    cases hb : p l
    · exact absurd hb hpl
    · rfl
  have hlmem : l ∈ (List.range n).filter p :=
    List.mem_filter.mpr ⟨List.mem_range.mpr hln, hpl'⟩
  have hle := pairwise_getLast_ge ((List.range n).filter p)
    (List.Pairwise.sublist (List.filter_sublist _) (List.pairwise_lt_range n)) j h l hlmem
  omega

/-- C8 (amended): `parseJsonFromResponse` extracts the region running from
the first `{` of the text to its LAST `}` (the regex `\x7b[\s\S]*\x7d` is
greedy), hands exactly that region to `JSON.parse`, and returns `none` when
no such region exists or parsing fails; it never repairs the region.  The
located region is characterized by: it is the slice between an `i < j` with
`{` at `i` and `}` at `j`, no `{` anywhere before `i`, and no `}` anywhere
after `j`. -/
theorem response_interpreter_amended (s : String) :
    (∀ t, jsonBraceMatch s = some t →
       parseJsonFromResponse s = jparse t ∧
       ∃ i j, i < j ∧ s.toList.get? i = some '{' ∧ s.toList.get? j = some '}' ∧
         (∀ k, k < i → s.toList.get? k ≠ some '{') ∧
         (∀ l, j < l → s.toList.get? l ≠ some '}') ∧
         t = String.mk ((s.toList.drop i).take (j + 1 - i))) ∧
    (jsonBraceMatch s = none → parseJsonFromResponse s = none) := by
  constructor
  · intro t ht
    have hparse : parseJsonFromResponse s = jparse t := by
      unfold parseJsonFromResponse
      rw [ht]
    refine ⟨hparse, ?_⟩
    have ht2 := ht
    simp only [jsonBraceMatch] at ht2
    split at ht2
    · exact absurd ht2 (by simp)
    · rename_i i hfind
      split at ht2
      · exact absurd ht2 (by simp)
      · rename_i j hlast
        have htEq : t = String.mk ((s.toList.drop i).take (j + 1 - i)) :=
          (Option.some.inj ht2).symm
        obtain ⟨hpi, hin, hmin⟩ := find?_range_first hfind
        rw [Bool.and_eq_true] at hpi
        have hbrace : s.toList.get? i = some '{' := of_decide_eq_true hpi.1
        obtain ⟨j1, hj1range, hj1cond⟩ := List.any_eq_true.mp hpi.2
        rw [Bool.and_eq_true] at hj1cond
        have hij1 : i < j1 := of_decide_eq_true hj1cond.1
        have hj1brace : s.toList.get? j1 = some '}' := of_decide_eq_true hj1cond.2
        obtain ⟨hpj, hjn, hmax⟩ := filter_getLast_last hlast
        have hjbrace : s.toList.get? j = some '}' := of_decide_eq_true hpj
        have hj1n : j1 < s.toList.length := List.mem_range.mp hj1range
        have hj1le : j1 ≤ j := by
          by_contra hgt
          push_neg at hgt
          have hfalse := hmax j1 hgt hj1n
          rw [decide_eq_false_iff_not] at hfalse
          exact hfalse hj1brace
        refine ⟨i, j, lt_of_lt_of_le hij1 hj1le, hbrace, hjbrace, ?_, ?_, htEq⟩
        · intro k hk hkbrace
          have hpk := hmin k hk
          rw [Bool.and_eq_false_iff] at hpk
          rcases hpk with hk1 | hk2
          · rw [decide_eq_false_iff_not] at hk1
            exact hk1 hkbrace
          · have hany : ((List.range s.toList.length).any
                (fun j2 => decide (k < j2) && decide (s.toList.get? j2 = some '}'))) = true := by
              refine List.any_eq_true.mpr ⟨j, List.mem_range.mpr hjn, ?_⟩
              rw [Bool.and_eq_true]
              refine ⟨decide_eq_true ?_, decide_eq_true hjbrace⟩
              omega
            rw [hany] at hk2
            exact absurd hk2 (by simp)
        · intro l hl hlbrace
          by_cases hln : l < s.toList.length
          · have hfalse := hmax l hl hln
            rw [decide_eq_false_iff_not] at hfalse
            exact hfalse hlbrace
          · have hnone : s.toList.get? l = none :=
              List.get?_eq_none.mpr (le_of_not_lt hln)
            rw [hnone] at hlbrace
            exact absurd hlbrace (by simp)
  · intro hn
    unfold parseJsonFromResponse
    rw [hn]

/-- Witness for C8 (amended): on a text whose greedy brace region is
`"\x7ba\x7d"`, the interpreter parses exactly that region. -/
theorem response_interpreter_amended_witness :
    jsonBraceMatch "x\x7b\"a\":1\x7d" = some "\x7b\"a\":1\x7d" ∧
    parseJsonFromResponse "x\x7b\"a\":1\x7d" = jparse "\x7b\"a\":1\x7d" := by
  have h : jsonBraceMatch "x\x7b\"a\":1\x7d" = some "\x7b\"a\":1\x7d" := rfl
  exact ⟨h, ((response_interpreter_amended "x\x7b\"a\":1\x7d").1 _ h).1⟩

/-- Counterexample to C8 as stated: on the text consisting of an empty
object followed by a stray closing brace, the first balanced region is
valid JSON, yet the implementation matches greedily up to the LAST closing
brace, `JSON.parse` throws on the stray brace, and the interpreter returns
`none` instead of the parsed object demanded by the spec contract. -/
theorem response_interpreter_cex :
    specResponseInterpret "\x7b\x7d \x7d" = some (Json.obj []) ∧
    parseJsonFromResponse "\x7b\x7d \x7d" = none ∧
    jsonBraceMatch "\x7b\x7d \x7d" = some "\x7b\x7d \x7d" ∧
    specFirstBalancedRegion "\x7b\x7d \x7d" = some "\x7b\x7d" := by
  exact ⟨rfl, rfl, rfl, rfl⟩

end ConcreteEvaluation
